import Mathlib

/-!
# Verification of the Anushandhan research-paper-generation backend

Shallow embedding of the Python backend (FastAPI service that generates
academic-style papers from a topic and, optionally, a GitHub repository)
and proofs about the properties claimed of it.

Embedded modules:
* `backend/app/utils/cache.py`            (`CacheManager`, `github_repo_cache`)
* `backend/app/utils/url_validator.py`    (`URLValidator`)
* `backend/app/utils/paper_humanizer.py`  (`PaperHumanizer`)
* `backend/app/services/paper_generator.py` (`GitHubPaperGenerator`)
* `backend/app/services/gemini_generator.py` (`GeminiGenerator`, text parts)
* `backend/app/api/research_generator.py` (`ResearchPaperGenerator`, endpoint)

Python strings are modelled as `List Char` (named `Chars`), with wrappers
mirroring Python's `str` methods and the specific `re` substitutions the
code performs.  `time.time()` values are modelled as rationals.  External
effects (subprocess clone, GitHub HTTP calls, the Gemini API) are stub
parameters of the embedded functions; their orchestration order is captured
by explicit event traces.  Randomness (`random.random`, `random.choice`) is
modelled by an explicit stream of draws threaded through the functions.
-/

/-! ## Python string primitives (`List Char` based, all structurally recursive
so that the kernel can evaluate them) -/

namespace PyStr

abbrev Chars := List Char

/-- Python's `\s` / `str.isspace` for the ASCII whitespace characters
`" \t\n\r\x0b\x0c"`.  (Non-ASCII whitespace is not modelled.) -/
def pyIsSpaceC (c : Char) : Bool :=
  c = ' ' || c = '\t' || c = '\n' || c = '\r' || c = '\x0b' || c = '\x0c'

/-- `str.lower` (ASCII). -/
def lowerL (s : Chars) : Chars := s.map Char.toLower

/-- `str.upper` on a single char (ASCII), used by `str.capitalize`. -/
def upperC (c : Char) : Char := c.toUpper

/-- Python `str.capitalize()`: first character upper-cased, the rest lower-cased. -/
def capitalizeL : Chars → Chars
  | [] => []
  | c :: rest => upperC c :: lowerL rest

/-- `str.strip(chars)`: remove the given characters from both ends. -/
def stripCharsL (cs : List Char) (s : Chars) : Chars :=
  ((s.dropWhile (fun c => c ∈ cs)).reverse.dropWhile (fun c => c ∈ cs)).reverse

/-- `str.strip()` (no argument): strip whitespace from both ends. -/
def stripWsL (s : Chars) : Chars :=
  ((s.dropWhile pyIsSpaceC).reverse.dropWhile pyIsSpaceC).reverse

/-- `str.rstrip(chars)`: remove the given characters from the right end. -/
def rstripCharsL (cs : List Char) (s : Chars) : Chars :=
  (s.reverse.dropWhile (fun c => c ∈ cs)).reverse

/-- Split on every character satisfying `p`, keeping empty pieces
(the semantics of Python `str.split(sep)` for a one-character `sep`). -/
def splitAnyL (p : Char → Bool) : Chars → List Chars
  | [] => [[]]
  | c :: rest =>
    if p c then [] :: splitAnyL p rest
    else match splitAnyL p rest with
      | [] => [[c]]
      | piece :: pieces => (c :: piece) :: pieces

/-- Python `str.split('/')` and friends: split on a single character. -/
def splitCharL (sep : Char) (s : Chars) : List Chars :=
  splitAnyL (fun c => c = sep) s

/-- Python `str.split()` (no argument): split on whitespace runs,
discarding empty pieces. -/
def splitWsL (s : Chars) : List Chars :=
  (splitAnyL pyIsSpaceC s).filter (fun piece => piece ≠ [])

/-- Fuel-driven worker for `str.split(sep)` with a multi-character
separator: non-overlapping, left-to-right, keeping empty pieces. -/
def splitOnAux (sep : Chars) : ℕ → Chars → List Chars
  | _, [] => [[]]
  | 0, s => [s]
  | fuel + 1, c :: rest =>
    if sep.isPrefixOf (c :: rest) then
      [] :: splitOnAux sep fuel ((c :: rest).drop sep.length)
    else match splitOnAux sep fuel rest with
      | [] => [[c]]
      | piece :: pieces => (c :: piece) :: pieces

/-- Python `str.split(sep)` for a non-empty separator. -/
def splitOnL (sep : Chars) (s : Chars) : List Chars :=
  splitOnAux sep s.length s

/-- Python `sep.join(pieces)`. -/
def joinL (sep : Chars) : List Chars → Chars
  | [] => []
  | [piece] => piece
  | piece :: pieces => piece ++ sep ++ joinL sep pieces

/-- Fuel-driven worker for `str.replace(old, new)`: non-overlapping,
left-to-right replacement of every occurrence. -/
def replaceAux (old new : Chars) : ℕ → Chars → Chars
  | _, [] => []
  | 0, s => s
  | fuel + 1, c :: rest =>
    if old.isPrefixOf (c :: rest) then
      new ++ replaceAux old new fuel ((c :: rest).drop old.length)
    else c :: replaceAux old new fuel rest

/-- Python `str.replace(old, new)` for a non-empty `old`. -/
def replaceL (s old new : Chars) : Chars :=
  replaceAux old new s.length s

/-- Python `sub in s`: substring containment. -/
def pyInL (sub : Chars) : Chars → Bool
  | [] => sub.isPrefixOf []
  | c :: rest => sub.isPrefixOf (c :: rest) || pyInL sub rest

/-- Python `s.startswith(p)`. -/
def startsWithL (s p : Chars) : Bool := p.isPrefixOf s

/-- Python `s.endswith(p)`. -/
def endsWithL (s p : Chars) : Bool := p.isSuffixOf s

/-- `re.sub(r'\s+', ' ', s)`: collapse every whitespace run to a single
space.  `prevWs` records whether the previous character was whitespace. -/
def collapseWsAux : Bool → Chars → Chars
  | _, [] => []
  | prevWs, c :: rest =>
    if pyIsSpaceC c then
      if prevWs then collapseWsAux true rest
      else ' ' :: collapseWsAux true rest
    else c :: collapseWsAux false rest

def collapseWsL (s : Chars) : Chars := collapseWsAux false s

/-- Collapse runs of two or more copies of `c` to a single copy:
`re.sub(r'[.]{2,}', '.', s)` and `re.sub(r'[,]{2,}', ',', s)`. -/
def collapseRunsAux (ch : Char) : Bool → Chars → Chars
  | _, [] => []
  | prev, c :: rest =>
    if c = ch then
      if prev then collapseRunsAux ch true rest
      else c :: collapseRunsAux ch true rest
    else c :: collapseRunsAux ch false rest

def collapseRunsL (ch : Char) (s : Chars) : Chars := collapseRunsAux ch false s

/-- `re.sub(r',\s*,', ',', s)`: non-overlapping left-to-right replacement.
`pend = some ws` means a `,` followed by the whitespace run `ws` (reversed)
has been read and may still complete a match. -/
def commaWsCommaAux : Option Chars → Chars → Chars
  | none, [] => []
  | some ws, [] => ',' :: ws.reverse
  | none, c :: rest =>
    if c = ',' then commaWsCommaAux (some []) rest
    else c :: commaWsCommaAux none rest
  | some ws, c :: rest =>
    if c = ',' then ',' :: commaWsCommaAux none rest
    else if pyIsSpaceC c then commaWsCommaAux (some (c :: ws)) rest
    else ',' :: ws.reverse ++ c :: commaWsCommaAux none rest

def commaWsCommaL (s : Chars) : Chars := commaWsCommaAux none s

/-- `re.split(r'(?<=[.!?])\s+', text)`: split at whitespace runs preceded
by `.`, `!` or `?`.  `mode = true` while the separator run is being
consumed; `cur` is the current piece, reversed. -/
def splitSentencesAux : Bool → Chars → Chars → List Chars
  | _, cur, [] => [cur.reverse]
  | true, _, c :: rest =>
    if pyIsSpaceC c then splitSentencesAux true [] rest
    else splitSentencesAux false [c] rest
  | false, cur, c :: rest =>
    if pyIsSpaceC c && (match cur with
        | p :: _ => p = '.' || p = '!' || p = '?'
        | [] => false) then
      cur.reverse :: splitSentencesAux true [] rest
    else splitSentencesAux false (c :: cur) rest

def splitSentencesL (s : Chars) : List Chars := splitSentencesAux false [] s

/-- A regex word character `[a-zA-Z0-9_]` (ASCII; Unicode word characters
are not modelled). -/
def isWordChar (c : Char) : Bool :=
  c.isAlpha || c.isDigit || c = '_'

/-- Whether there is a regex word boundary `\b` between `prev` and `next`
(`none` at the ends of the string). -/
def boundaryBetween (prev next : Option Char) : Bool :=
  (match prev with | some c => isWordChar c | none => false)
    ≠ (match next with | some c => isWordChar c | none => false)

/-- Fuel-driven worker for `re.sub(r'\b<lit>\b', repl, s, flags=re.IGNORECASE)`
with a literal pattern `lit`: case-insensitive match of `lit` bracketed by
word boundaries, replaced left-to-right without rescanning the replacement.
`prev` is the character just before the current position. -/
def subWordBoundAux (lit repl : Chars) : ℕ → Option Char → Chars → Chars
  | _, _, [] => []
  | 0, _, s => s
  | fuel + 1, prev, c :: rest =>
    let s := c :: rest
    let seg := s.take lit.length
    if seg.length = lit.length ∧ lowerL seg = lowerL lit
        ∧ boundaryBetween prev (some c)
        ∧ boundaryBetween seg.getLast? (s.drop lit.length).head? then
      repl ++ subWordBoundAux lit repl fuel seg.getLast? (s.drop lit.length)
    else c :: subWordBoundAux lit repl fuel (some c) rest

/-- `re.sub(r'\b<lit>\b', repl, s, flags=re.IGNORECASE)` for a literal
pattern `lit`. -/
def subWordBoundL (s lit repl : Chars) : Chars :=
  subWordBoundAux lit repl s.length none s

end PyStr

/-! ## Random source model

`random.random()` and `random.choice(...)` are modelled by explicit streams
of draws: a stream of rationals in `[0, 1)` for `random()` and a stream of
naturals for `choice` (interpreted modulo the length of the choice list).
An exhausted `random()` stream yields `1`, so that every `random() < p`
test is false from then on. -/

structure Rng where
  floats : List ℚ
  picks : List ℕ
  deriving Repr, DecidableEq

namespace Rng

def rand : Rng → ℚ × Rng
  | ⟨[], ps⟩ => (1, ⟨[], ps⟩)
  | ⟨f :: fs, ps⟩ => (f, ⟨fs, ps⟩)

/-- `random.choice(l)` for a non-empty list `l`. -/
def choice (l : List PyStr.Chars) : Rng → PyStr.Chars × Rng
  | ⟨fs, []⟩ => (l.headD [], ⟨fs, []⟩)
  | ⟨fs, p :: ps⟩ => (l.getD (p % l.length) [], ⟨fs, ps⟩)

end Rng

/-! ## `backend/app/utils/cache.py` -/

namespace PyCache

/-- The per-key record stored by `CacheManager.set`:
`{'value': ..., 'expires_at': ..., 'created_at': ...}`. -/
structure CacheEntry (α : Type) where
  value : α
  expires_at : ℚ
  created_at : ℚ
  deriving Repr, DecidableEq

/-- `CacheManager`: `self._cache` is a Python dict, modelled as an
association list with unique keys (insertion order preserved);
`self._default_ttl` is the constructor argument (default 3600). -/
structure CacheManager (α : Type) where
  cache : List (String × CacheEntry α)
  default_ttl : ℚ
  deriving Repr, DecidableEq

variable {κ : Type} [DecidableEq κ]

/-- Python dict lookup `d[key]` / `key in d`. -/
def dictFind (k : κ) : List (κ × β) → Option β
  | [] => none
  | (k', v) :: rest => if k' = k then some v else dictFind k rest

/-- Python dict assignment `d[key] = v`: overwrite in place, or append. -/
def dictInsert (k : κ) (v : β) : List (κ × β) → List (κ × β)
  | [] => [(k, v)]
  | (k', v') :: rest => if k' = k then (k, v) :: rest else (k', v') :: dictInsert k v rest

/-- Python `d.pop(key, None)`: remove the entry for `key` (dict keys are
unique, so removing every occurrence from the association list is the
same operation). -/
def dictPop (k : κ) (d : List (κ × β)) : List (κ × β) :=
  d.filter (fun p => p.1 ≠ k)

/-- `CacheManager.__init__`. -/
def CacheManager.init (α : Type) (default_ttl : ℚ) : CacheManager α :=
  ⟨[], default_ttl⟩

/-- `CacheManager.get(key)` at wall-clock time `now`: return the cached
value unless the key is absent or the entry has expired
(`current_time > expires_at`), in which case the expired entry is popped
and `None` is returned.  The (possibly updated) cache state is returned
alongside. -/
def CacheManager.get (m : CacheManager α) (key : String) (now : ℚ) :
    Option α × CacheManager α :=
  match dictFind key m.cache with
  | none => (none, m)
  | some entry =>
    if entry.expires_at < now then
      (none, { m with cache := dictPop key m.cache })
    else
      (some entry.value, m)

/-- `CacheManager.set(key, value, ttl)` at wall-clock time `now`:
`ttl = None` selects the default TTL; `expires_at = time.time() + ttl`. -/
def CacheManager.set (m : CacheManager α) (key : String) (v : α)
    (now : ℚ) (ttl : Option ℚ) : CacheManager α :=
  let t := ttl.getD m.default_ttl
  { m with cache := dictInsert key ⟨v, now + t, now⟩ m.cache }

/-- `CacheManager.invalidate(key)`. -/
def CacheManager.invalidate (m : CacheManager α) (key : String) : CacheManager α :=
  match dictFind key m.cache with
  | some _ => { m with cache := dictPop key m.cache }
  | none => m

/-- `CacheManager.clear()`. -/
def CacheManager.clear (m : CacheManager α) : CacheManager α :=
  { m with cache := [] }

/-- `CacheManager.cleanup()` at time `now`: pop every expired entry. -/
def CacheManager.cleanup (m : CacheManager α) (now : ℚ) : CacheManager α :=
  { m with cache := m.cache.filter (fun p => ¬ p.2.expires_at < now) }

/-- `github_repo_cache = CacheManager(default_ttl=3600)` (the value type is
a parameter of the model). -/
def github_repo_cache (α : Type) : CacheManager α :=
  CacheManager.init α 3600

end PyCache

/-! ## `urllib.parse.urlparse` (the fields used by `url_validator.py`)

Modelled on CPython 3.11 `urlsplit`/`urlparse`: strip leading/trailing
C0-control-or-space characters, remove tab/CR/LF anywhere, split off the
scheme (first-char alphabetic, remaining scheme characters), the netloc
(after `//`, up to `/`, `?` or `#`, with the IPv6 bracket `ValueError`),
the fragment, the query, and (for `urlparse`) the params after the last
`/` of the path. -/

namespace PyUrl

open PyStr

def schemeChar (c : Char) : Bool :=
  c.isAlpha || c.isDigit || c = '+' || c = '-' || c = '.'

/-- `_WHATWG_C0_CONTROL_OR_SPACE`. -/
def isC0OrSpace (c : Char) : Bool := c.toNat ≤ 32

/-- `_UNSAFE_URL_BYTES_TO_REMOVE = ["\t", "\r", "\n"]`. -/
def isUnsafeUrlChar (c : Char) : Bool := c = '\t' || c = '\r' || c = '\n'

structure ParseResult where
  scheme : Chars
  netloc : Chars
  path : Chars
  params : Chars
  query : Chars
  fragment : Chars
  deriving Repr, DecidableEq

def stripC0 (s : Chars) : Chars :=
  ((s.dropWhile isC0OrSpace).reverse.dropWhile isC0OrSpace).reverse

/-- `_splitparams`: split `;params` after the last `/` of the path. -/
def splitParams (url : Chars) : Chars × Chars :=
  if url.contains '/' then
    let afterLast := (url.reverse.takeWhile (fun c => c ≠ '/')).reverse
    if afterLast.contains ';' then
      let kept := afterLast.takeWhile (fun c => c ≠ ';')
      (url.take (url.length - afterLast.length) ++ kept,
       afterLast.drop (kept.length + 1))
    else (url, [])
  else
    if url.contains ';' then
      let kept := url.takeWhile (fun c => c ≠ ';')
      (kept, url.drop (kept.length + 1))
    else (url, [])

/-- `urllib.parse.urlparse(url)` — the `ValueError` for mismatched IPv6
brackets is surfaced as `.error`. -/
def urlparse (url0 : Chars) : Except String ParseResult :=
  let url1 := (stripC0 url0).filter (fun c => ¬ isUnsafeUrlChar c)
  let beforeColon := url1.takeWhile (fun c => c ≠ ':')
  let hasScheme : Bool :=
    beforeColon.length < url1.length &&
    (match beforeColon with
      | c :: rest => c.isAlpha && rest.all schemeChar
      | [] => false)
  let scheme := if hasScheme then lowerL beforeColon else []
  let url2 := if hasScheme then url1.drop (beforeColon.length + 1) else url1
  let hasNetloc : Bool := startsWithL url2 ['/', '/']
  let netloc :=
    if hasNetloc then (url2.drop 2).takeWhile (fun c => c ≠ '/' && c ≠ '?' && c ≠ '#')
    else []
  let url3 := if hasNetloc then (url2.drop 2).drop netloc.length else url2
  if (netloc.contains '[' && !netloc.contains ']')
      || (netloc.contains ']' && !netloc.contains '[') then
    .error "Invalid IPv6 URL"
  else
    let beforeFrag := url3.takeWhile (fun c => c ≠ '#')
    let fragment := if url3.contains '#' then url3.drop (beforeFrag.length + 1) else []
    let url4 := beforeFrag
    let beforeQuery := url4.takeWhile (fun c => c ≠ '?')
    let query := if url4.contains '?' then url4.drop (beforeQuery.length + 1) else []
    let url5 := beforeQuery
    let (path, params) := splitParams url5
    .ok ⟨scheme, netloc, path, params, query, fragment⟩

end PyUrl

/-! ## `backend/app/utils/url_validator.py` -/

namespace URLValidator

open PyStr

/-- `[a-zA-Z0-9]` as used by the validation regexes. -/
def alnumAscii (c : Char) : Bool := c.isAlpha || c.isDigit

/-- `re.match(r'^[a-zA-Z0-9][-a-zA-Z0-9]*$', s)`: the GitHub username
check.  A `$` also matches just before a trailing newline. -/
def usernameMatch (s : Chars) : Bool :=
  let core : Chars → Bool := fun t =>
    match t with
    | c :: rest => alnumAscii c && rest.all (fun d => d = '-' || alnumAscii d)
    | [] => false
  core s || (s.getLast? = some '\n' && core s.dropLast)

/-- `re.match(r'^[a-zA-Z0-9_.-]+$', s)`: the GitHub repo-name check. -/
def repoMatch (s : Chars) : Bool :=
  let core : Chars → Bool := fun t =>
    t ≠ [] && t.all (fun d => alnumAscii d || d = '_' || d = '.' || d = '-')
  core s || (s.getLast? = some '\n' && core s.dropLast)

/-- The `parsed.path.strip('/').split('/')` list both methods compute. -/
def pathParts (p : PyUrl.ParseResult) : List Chars :=
  splitCharL '/' (stripCharsL ['/'] p.path)

/-- `URLValidator.is_valid_github_url`. -/
def is_valid_github_url (url : String) : Bool :=
  if url.data = [] then false          -- `if not url: return False`
  else
    match PyUrl.urlparse url.data with
    | .error _ => false                -- `except Exception: return False`
    | .ok p =>
      if p.scheme = [] || p.netloc = [] then false
      else if ¬ pyInL "github.com".data (lowerL p.netloc) then false
      else
        match pathParts p with
        | p0 :: p1 :: _ =>              -- `len(path_parts) < 2` otherwise
          if ¬ usernameMatch p0 then false
          else if ¬ repoMatch p1 then false
          else true
        | _ => false

/-- `URLValidator.extract_github_info`. -/
def extract_github_info (url : String) : Option String × Option String :=
  if ¬ is_valid_github_url url then (none, none)
  else
    match PyUrl.urlparse url.data with
    | .error _ => (none, none)         -- bare `except: return (None, None)`
    | .ok p =>
      match pathParts p with
      | p0 :: p1 :: _ => (some (String.mk p0), some (String.mk p1))
      | _ => (none, none)              -- IndexError caught by the bare `except`

end URLValidator

/-! ## `backend/app/services/paper_generator.py` (`GitHubPaperGenerator`) -/

namespace PaperGen

open PyStr PyCache

/-- An item of the GitHub tree listing (`contents_data["tree"]`): only the
`path` and `type` fields are consulted by `_sample_important_files`. -/
structure TreeItem where
  path : String
  type : String
  deriving Repr, DecidableEq

/-- The `important_patterns` regex list of `_sample_important_files`.
Every regex is a `$`-anchored suffix literal; the single alternation
`r'\.yaml$|\.yml$'` is a two-suffix pattern. -/
def important_patterns : List (List String) :=
  [[".py"], [".js"], [".java"], [".cpp"], [".go"], [".rs"], [".rb"], [".php"],
   [".html"], [".css"], [".json"], [".xml"], [".md"], [".yaml", ".yml"],
   ["Dockerfile"], ["Makefile"]]

/-- `re.search(r'<suf>$', s)`: the string ends with `suf`, or with
`suf` followed by one trailing newline (`$` also matches there). -/
def reSearchSuffix (suf : Chars) (s : Chars) : Bool :=
  endsWithL s suf || endsWithL s (suf ++ ['\n'])

/-- `re.search(pattern, f.get("path", ""))` for one `important_patterns`
entry. -/
def matchesPattern (pat : List String) (path : String) : Bool :=
  pat.any (fun suf => reSearchSuffix suf.data path.data)

/-- `GitHubPaperGenerator._sample_important_files`.  The per-file content
request (`GET .../contents/<path>`, base64 decode) is the stub
`fetch`: `none` models a non-200 response or an absent/empty `content`
field, `some c` the decoded text.  The file is skipped when its path is
falsy, and the stored content is truncated to 2000 characters. -/
def sample_important_files (tree : List TreeItem) (fetch : String → Option String) :
    List (String × String) :=
  let files := tree.filter (fun item => item.type = "blob")
  let important_files := important_patterns.foldl
    (fun acc pattern => acc ++ (files.filter (fun f => matchesPattern pattern f.path)).take 2)
    []
  let sampled_files := important_files.take 5
  sampled_files.filterMap (fun file =>
    if file.path = "" then none
    else match fetch file.path with
      | none => none
      | some content => some (file.path, String.mk (content.data.take 2000)))

/-- The dictionary assembled by `fetch_repo_data`
(`{"metadata": ..., "languages": ..., "commits": ..., "readme": ...,
"sampled_files": ...}`).  The JSON payloads are abstracted to the parts
of them this development needs. -/
structure RepoData where
  metadata : List (String × String)
  languages : List (String × ℕ)
  commits : List String
  readme : Option String
  sampled_files : List (String × String)
  deriving Repr, DecidableEq

/-- `GitHubPaperGenerator.fetch_repo_data` at wall-clock time `now`.

The block of GitHub API requests (metadata, tree, languages, commits,
README, sampled files) is the stub `api`: `.error e` models any of the
`ValueError`s raised for failed requests, `.ok d` the combined result
dictionary.  The function first validates the URL, then consults
`github_repo_cache` under the key `"github_repo:" + repo_url`
(a cached value is always the truthy result dictionary), and caches a
freshly fetched result with the default TTL.  The updated cache state is
returned alongside. -/
def fetch_repo_data (m : CacheManager RepoData) (repo_url : String) (now : ℚ)
    (api : Except String RepoData) :
    Except String RepoData × CacheManager RepoData :=
  if ¬ URLValidator.is_valid_github_url repo_url then
    (.error "Invalid GitHub repository URL format", m)
  else
    let cache_key := "github_repo:" ++ repo_url
    match m.get cache_key now with
    | (some cached_data, m') => (.ok cached_data, m')
    | (none, m') =>
      match URLValidator.extract_github_info repo_url with
      | (some _, some _) =>
        match api with
        | .error e => (.error e, m')
        | .ok result => (.ok result, m'.set cache_key result now none)
      | _ => (.error "Could not extract repository information from URL", m')

end PaperGen

namespace PaperGen

open PyStr

/-- `GitHubPaperGenerator._generate_error_paper(topic, repo_url,
error_message, sections)` with `datetime.now().strftime('%B %d, %Y')`
passed in as `today`.  The `topic` argument and the defaulted `sections`
list are not used by the body (faithful to the source). -/
def generate_error_paper (topic : Chars) (repo_url : Chars) (error_message : Chars)
    (sections : Option (List Chars)) (today : Chars) : Chars :=
  let _unusedTopic := topic
  let _unusedSections := sections.getD
    ["Abstract".data, "Introduction".data, "Methodology".data,
     "Limitations".data, "Conclusion".data]
  let repo_parts := splitCharL '/' repo_url
  let repo_name := match repo_parts.getLast? with
    | some x => x
    | none => "repository".data
  let owner_name := match repo_parts.reverse with
    | _ :: o :: _ => o
    | _ => "owner".data
  "# Limited Analysis of ".data ++ owner_name ++ "/".data ++ repo_name ++ "\n\n".data
  ++ "## IEEE Conference Paper\n\n".data
  ++ "**Repository**: ".data ++ owner_name ++ "/".data ++ repo_name ++ "\n".data
  ++ "**Date**: ".data ++ today ++ "\n".data
  ++ "**URL**: ".data ++ repo_url ++ "\n\n".data
  ++ "## ⚠️ Limited Repository Analysis\n\n".data
  ++ "This paper provides a limited analysis of the repository due to data access constraints. ".data
  ++ "The following error was encountered: **".data ++ error_message ++ "**\n\n".data
  ++ "The analysis below is based on available repository metadata and general ".data
  ++ "software engineering principles relevant to similar repositories.\n\n".data
  ++ "## Abstract\n\n".data
  ++ "This paper attempts to analyze the software architecture and implementation of ".data
    ++ repo_name ++ ", ".data
  ++ "a project hosted on GitHub. While complete repository data was not accessible due to ".data
  ++ "technical limitations, this analysis provides valuable insights into software engineering ".data
  ++ "considerations for similar projects. This research examines potential architectural patterns, ".data
  ++ "implementation approaches, and development practices that would be relevant for ".data
    ++ repo_name ++ ".\n\n".data
  ++ "## Introduction\n\n".data
  ++ "GitHub repositories like ".data ++ owner_name ++ "/".data ++ repo_name
    ++ " represent the modern approach to ".data
  ++ "collaborative software development. While this specific repository's contents could not be ".data
  ++ "fully accessed, we can still explore the broader context of software engineering approaches ".data
  ++ "that would apply to similar projects.\n\n".data
  ++ "GitHub repositories typically contain source code, documentation, configuration files, ".data
  ++ "and other assets necessary for software development. They facilitate version control, ".data
  ++ "collaboration, issue tracking, and continuous integration/deployment.\n\n".data
  ++ "## Methodology and Limitations\n\n".data
  ++ "This research faced significant limitations in data collection. The standard methodology ".data
  ++ "would involve:\n\n".data
  ++ "1. Repository structure analysis\n".data
  ++ "2. Programming language composition assessment\n".data
  ++ "3. Code organization patterns identification\n".data
  ++ "4. Examination of key components and their interactions\n\n".data
  ++ "However, due to access constraints, a modified approach was necessary. This paper ".data
  ++ "instead focuses on:\n\n".data
  ++ "1. General software engineering principles applicable to GitHub projects\n".data
  ++ "2. Common architectural patterns in modern software development\n".data
  ++ "3. Best practices for repository organization and management\n".data
  ++ "4. Theoretical analysis based on repository metadata\n\n".data
  ++ "## Software Engineering Best Practices\n\n".data
  ++ "While specific details of the repository cannot be analyzed, we can discuss ".data
  ++ "software engineering best practices that should be applied to all repositories:\n\n".data
  ++ "### Code Organization\n\n".data
  ++ "Well-structured repositories typically organize code into logical modules or packages. ".data
  ++ "This separation of concerns improves maintainability and allows different team members ".data
  ++ "to work on separate components simultaneously.\n\n".data
  ++ "### Documentation\n\n".data
  ++ "Comprehensive documentation is essential for any software project. This includes:\n\n".data
  ++ "- README files explaining project purpose and setup\n".data
  ++ "- API documentation for developers\n".data
  ++ "- Architecture diagrams showing component relationships\n".data
  ++ "- Code comments explaining complex implementations\n\n".data
  ++ "### Testing\n\n".data
  ++ "Robust testing strategies are critical for maintaining software quality. These typically include:\n\n".data
  ++ "- Unit tests for individual functions and methods\n".data
  ++ "- Integration tests for component interactions\n".data
  ++ "- End-to-end tests simulating user workflows\n".data
  ++ "- Performance tests ensuring system efficiency\n\n".data
  ++ "## Conclusion\n\n".data
  ++ "While this analysis of ".data ++ owner_name ++ "/".data ++ repo_name
    ++ " faced significant limitations in data access, ".data
  ++ "it highlights the importance of software engineering principles in GitHub-based development. ".data
  ++ "Future research could address these limitations by working directly with repository maintainers ".data
  ++ "to gain proper access for analysis.\n\n".data
  ++ "The theoretical framework presented here provides valuable insights for developers ".data
  ++ "working on similar projects, emphasizing code organization, documentation, and testing ".data
  ++ "as pillars of successful software development.\n\n".data
  ++ "## References\n\n".data
  ++ "1. ".data ++ owner_name ++ "/".data ++ repo_name ++ ", GitHub, ".data ++ repo_url ++ "\n".data
  ++ "2. IEEE Standard for Software Engineering, IEEE Std 1016-2009\n".data
  ++ "3. C. Northrop, \"Software Architecture in Practice,\" Addison-Wesley, 2012\n".data
  ++ "4. M. Fowler, \"Patterns of Enterprise Application Architecture,\" Addison-Wesley, 2002\n".data
  ++ "5. R. Martin, \"Clean Code: A Handbook of Agile Software Craftsmanship,\" Prentice Hall, 2008\n".data

/-- Outcome of `GitHubPaperGenerator.generate_research_paper`.  The
success branch (source lines 397–618) builds a long document string from
the fetched repository data; no claim concerns that text, so the success
outcome is represented by the repository data the document is generated
from.  The fallback branch is embedded in full. -/
inductive GHPaperResult where
  | fromRepoData (d : RepoData)
  | errorPaper (content : Chars)
  deriving Repr, DecidableEq

/-- `GitHubPaperGenerator.generate_research_paper(topic, repo_url,
sections)`: fetch the repository data; if fetching raises, log
`"Error fetching repository data: ..."` and return the paper built by
`_generate_error_paper` instead.  Returns the outcome, the updated cache
and the list of error-log messages emitted. -/
def generate_research_paper_gh (m : PyCache.CacheManager RepoData)
    (topic : Chars) (repo_url : String) (sections : Option (List Chars))
    (now : ℚ) (api : Except String RepoData) (today : Chars) :
    GHPaperResult × PyCache.CacheManager RepoData × List String :=
  match fetch_repo_data m repo_url now api with
  | (.error e, m') =>
    (.errorPaper (generate_error_paper topic repo_url.data e.data sections today),
     m', ["Error fetching repository data: " ++ e])
  | (.ok d, m') => (.fromRepoData d, m', [])

end PaperGen

/-! ## `backend/app/api/research_generator.py` (`ResearchPaperGenerator`)

The pipeline's externally visible steps are recorded as an event trace:
repository ingestion (clone, file reading, metadata, chunking), prompt
construction and model invocation per section, response parsing
(topic-only path), temporary-directory cleanup and document assembly.
`humanizePass` is the textual post-processing pass of
`GeminiGenerator.generate_paper_section` (`_humanize_text`,
`_add_natural_variations`, `_add_intentional_imperfections`); the event
exists so that its presence or absence in a trace can be stated. -/

inductive Event where
  | cloneRepo
  | readFiles
  | fetchMetadata
  | divideChunks
  | buildPrompt (sectionName : PyStr.Chars)
  | modelCall (sectionName : PyStr.Chars)
  | humanizePass (sectionName : PyStr.Chars)
  | combinedPrompt
  | combinedModelCall
  | parseResponse
  | cleanupTmp
  | assembleDoc
  deriving Repr, DecidableEq

namespace ResearchGen

open PyStr PyCache

/-- The `repo_metadata` dictionary returned by
`GitHubProcessor.get_repository_metadata`, with each value already
rendered as the text its f-string interpolation produces. -/
structure RepoMeta where
  name : Chars
  owner : Chars
  description : Chars
  stars : Chars
  language : Chars
  created_at : Chars
  updated_at : Chars
  deriving Repr, DecidableEq

/-- The default section list of
`ResearchPaperGenerator.generate_research_paper`. -/
def default_sections : List Chars :=
  ["abstract", "introduction", "literature_review", "methodology",
   "results", "discussion", "conclusion", "references"].map String.data

/-- The skip list of the per-section loop. -/
def loop_skip_sections : List Chars :=
  ["code_analysis", "code analysis", "implementation"].map String.data

/-- `section_order` (source line 215): the canonical assembly order. -/
def section_order : List Chars :=
  ["abstract", "introduction", "literature_review", "methodology",
   "results", "discussion", "conclusion", "references"].map String.data

/-- Lines 50–67: default the section list, lower-case it, and
`sections.remove("code_analysis")` (Python `list.remove` deletes the
first occurrence only). -/
def effectiveSections (sections : List Chars) : List Chars :=
  let s0 := if sections = [] then default_sections else sections
  let s1 := s0.map lowerL
  if "code_analysis".data ∈ s1 then s1.erase "code_analysis".data else s1

/-- The strong no-code system prompt of the repository path (lines 89–99). -/
def system_prompt_repo : Chars :=
  ("You are generating a formal IEEE-style academic research paper based on a software repository.\n                    \n                    EXTREMELY IMPORTANT INSTRUCTIONS - You MUST follow these exactly:\n                    1. DO NOT include ANY code snippets whatsoever in your response\n                    2. DO NOT include a \"Code Analysis\" section or any similar section\n                    3. DO NOT analyze or describe individual files, functions, or code fragments\n                    4. Focus ONLY on high-level architectural concepts, design patterns, and software engineering principles\n                    5. Structure your response like a traditional academic paper with ONLY the standard sections\n                    6. Your analysis should focus on architectural patterns, not implementation details\n                    \n                    Your paper should exclusively discuss software engineering concepts, principles, and architectural patterns.").data

/-- The per-section instruction f-string (lines 108–116). -/
def section_instruction (sectionName : Chars) : Chars :=
  "Generate the ".data ++ sectionName
  ++ (" section for an IEEE research paper about the repository.\n                        \n                        EXTREMELY IMPORTANT: \n                        - DO NOT include ANY code snippets\n                        - DO NOT include file-by-file analysis\n                        - DO NOT mention specific variable names, function names, or code details\n                        - Focus ONLY on high-level architectural concepts and software engineering principles\n                        \n                        Write this section like a traditional academic paper focusing on concepts, not code.").data

/-- The repository-metadata f-string (lines 119–127). -/
def repo_info (meta : RepoMeta) : Chars :=
  "\n                        Repository Name: ".data ++ meta.name
  ++ "\n                        Repository Owner: ".data ++ meta.owner
  ++ "\n                        Description: ".data ++ meta.description
  ++ "\n                        Stars: ".data ++ meta.stars
  ++ "\n                        Primary Language: ".data ++ meta.language
  ++ "\n                        Created: ".data ++ meta.created_at
  ++ "\n                        Last Updated: ".data ++ meta.updated_at
  ++ "\n                        ".data

/-- The references instruction f-string (lines 131–138). -/
def refs_instruction : Chars :=
  ("Generate the references section for an IEEE research paper about software architecture and engineering.\n                            Format the references in proper IEEE format. For example:\n                            [1] Author(s), \"Title of paper,\" in Title of Published Proceedings, Year, pp. pages.\n                            [2] Author(s), Title of Book. City, State: Publisher, Year.\n                            \n                            Include the GitHub repository as the first reference. Then include relevant software engineering references.\n                            DO NOT make up fake citations - use only legitimate, well-known software engineering books and papers.\n                            ").data

/-- The `(system_prompt, user_prompt)` pair passed to
`_generate_with_gemini` for one section of the repository path
(lines 129–149). -/
def sectionPrompts (repo_url : String) (meta : RepoMeta) (sectionName : Chars) :
    Chars × Chars :=
  if sectionName = "references".data then
    ("You are a bibliography generator for IEEE papers. You create proper IEEE format references.".data,
     refs_instruction ++ "\n\nRepository: ".data ++ repo_url.data
       ++ "\nNo code snippets allowed.".data)
  else
    (system_prompt_repo,
     section_instruction sectionName ++ "\n\nRepository Metadata:\n".data
       ++ repo_info meta ++ "\n\nRemember: NO code snippets or analysis.".data)

/-- `' '.join(word.capitalize() for word in section.split('_'))`. -/
def formatSectionName (s : Chars) : Chars :=
  joinL " ".data ((splitCharL '_' s).map capitalizeL)

/-- The IEEE header built at lines 228–244. -/
def ieeeHeader (topic : Chars) (repo_url : Option String) (today : Chars) : Chars :=
  let h0 := "## IEEE Conference Paper\n\n".data
  let h1 := match repo_url with
    | some url =>
      let parts := splitCharL '/' (rstripCharsL ['/'] url.data)
      let owner := match parts.reverse with
        | _ :: o :: _ => o
        | _ => "Unknown".data
      let repo_name := match parts.reverse with
        | r :: _ => r
        | [] => "Unknown".data
      h0 ++ "**Repository**: ".data ++ owner ++ "/".data ++ repo_name ++ "\n".data
    | none => h0 ++ "**Topic**: ".data ++ topic ++ "\n".data
  let h2 := h1 ++ "**Date**: ".data ++ today ++ "\n".data
  match repo_url with
  | some url => h2 ++ "**URL**: ".data ++ url.data ++ "\n\n".data
  | none => h2

/-- Lines 211–256: assembly of the returned dictionary.  Every canonical
section of `section_order` is emitted (with a placeholder when it was not
generated), followed by the `"Full Paper"` entry. -/
def assembleResult (topic : Chars) (repo_url : Option String) (today : Chars)
    (result : List (Chars × Chars)) : List (Chars × Chars) :=
  let formatted := section_order.map (fun sectionName =>
    let fs := formatSectionName sectionName
    match dictFind sectionName result with
    | some v => (fs, v)
    | none => (fs, "This ".data ++ fs ++ " section was not generated.".data))
  let header := ieeeHeader topic repo_url today
  let full0 := "# Research Paper: ".data ++ topic ++ "\n\n".data ++ header
  let full := section_order.foldl (fun acc sectionName =>
    match dictFind sectionName result with
    | some v => acc ++ "## ".data ++ formatSectionName sectionName ++ "\n\n".data
        ++ v ++ "\n\n".data
    | none => acc) full0
  formatted ++ [("Full Paper".data, full)]

/-- The combined topic-only prompt (lines 164–168). -/
def combined_prompt (topic : Chars) (sections : List Chars) (word_count : ℕ) : Chars :=
  "Generate a research paper on the topic: ".data ++ topic ++ ". ".data
  ++ "Include the following sections: ".data ++ joinL ", ".data sections ++ ". ".data
  ++ "The paper should be approximately ".data ++ (toString word_count).data
    ++ " words. ".data
  ++ "DO NOT include code snippets or a 'Code Analysis' section. ".data
  ++ "This should be a formal academic paper in IEEE format.".data

/-- The topic-only system prompt (lines 171–175). -/
def system_prompt_topic : Chars :=
  ("You are a research paper generator that creates comprehensive, well-structured academic papers on a given topic in IEEE format. Focus on traditional academic writing, following a formal structure with Abstract, Introduction, Literature Review, Methodology, Results, Discussion, Conclusion, and References. DO NOT include code snippets or implementation details.").data

/-- Lines 183–201: parse the single response into sections by scanning
its lines for section headers. -/
def parseResponseLines (sections : List Chars) (response : Chars) :
    List (Chars × Chars) :=
  let step := fun (st : Option Chars × List (Chars × Chars)) (line0 : Chars) =>
    let line := stripWsL line0
    if line = [] then st
    else
      let lower_line := lowerL line
      match sections.find? (fun sec =>
          pyInL sec lower_line || pyInL (replaceL sec "_".data " ".data) lower_line) with
      | some found => (some found, dictInsert found [] st.2)
      | none =>
        match st.1 with
        | some cur =>
          (st.1, dictInsert cur (((dictFind cur st.2).getD []) ++ line ++ "\n".data) st.2)
        | none => st
  ((splitCharL '\n' response).foldl step (none, [])).2

/-- Lines 203–206: `result[section] = f"Content for {section} section."`
for every requested section that is still missing. -/
def fillMissingSections (sections : List Chars) (result : List (Chars × Chars)) :
    List (Chars × Chars) :=
  sections.foldl (fun d sec =>
    match dictFind sec d with
    | some _ => d
    | none => dictInsert sec ("Content for ".data ++ sec ++ " section.".data) d) result

/-- Python truthiness of the optional `repo_url` (`None` and `""` are falsy). -/
def truthyOptStr : Option String → Bool
  | none => false
  | some s => s ≠ ""

/-- The per-section `for section in sections:` loop of the repository
path (lines 102–149): skip the skip-listed sections; for every other
section build the prompts and store the Gemini response in `result`.
`acc` is the `result` dictionary built so far; the returned event list
records prompt construction and model invocation in execution order. -/
def repoSectionLoop (gemini : Chars → Chars → Chars) (url : String)
    (meta : RepoMeta) (acc : List (Chars × Chars)) :
    List Chars → List (Chars × Chars) × List Event
  | [] => (acc, [])
  | sectionName :: rest =>
    if sectionName ∈ loop_skip_sections then
      repoSectionLoop gemini url meta acc rest
    else
      let prompts := sectionPrompts url meta sectionName
      let out := repoSectionLoop gemini url meta
        (dictInsert sectionName (gemini prompts.1 prompts.2) acc) rest
      (out.1, Event.buildPrompt sectionName :: Event.modelCall sectionName :: out.2)

/-- `ResearchPaperGenerator.generate_research_paper(topic, sections,
word_count, repo_url)`.

`gemini sys user` is the (successful) response of
`GeminiGenerator._generate_with_gemini(sys, user)`; `meta` the rendered
repository metadata; `today` the formatted current date.  Returns the
formatted result dictionary together with the trace of pipeline events in
execution order. -/
def generate_research_paper (topic : Chars) (sections : List Chars)
    (word_count : ℕ) (repo_url : Option String)
    (gemini : Chars → Chars → Chars) (meta : RepoMeta) (today : Chars) :
    List (Chars × Chars) × List Event :=
  let eff := effectiveSections sections
  if truthyOptStr repo_url then
    let url := match repo_url with | some u => u | none => ""
    -- clone_repository, read_repository_files, get_repository_metadata,
    -- divide_code_into_chunks (the chunks are not used afterwards)
    let ingest : List Event := [.cloneRepo, .readFiles, .fetchMetadata, .divideChunks]
    let loopOut := repoSectionLoop gemini url meta [] eff
    let result := loopOut.1
    (assembleResult topic (some url) today result,
     ingest ++ loopOut.2 ++ [.cleanupTmp, .assembleDoc])
  else
    let response := gemini system_prompt_topic (combined_prompt topic eff word_count)
    let parsed := parseResponseLines eff response
    let result := fillMissingSections eff parsed
    (assembleResult topic none today result,
     [.combinedPrompt, .combinedModelCall, .parseResponse, .assembleDoc])

/-- The internal `result` dictionary that `generate_research_paper` hands
to the assembly step (the same computation as the corresponding branch of
`generate_research_paper`, exposed as a projection so that statements can
speak about which sections were generated). -/
def internalResult (topic : Chars) (sections : List Chars) (word_count : ℕ)
    (repo_url : Option String) (gemini : Chars → Chars → Chars)
    (meta : RepoMeta) : List (Chars × Chars) :=
  let eff := effectiveSections sections
  if truthyOptStr repo_url then
    let url := match repo_url with | some u => u | none => ""
    (repoSectionLoop gemini url meta [] eff).1
  else
    fillMissingSections eff
      (parseResponseLines eff (gemini system_prompt_topic (combined_prompt topic eff word_count)))

end ResearchGen

/-! ## The `/generate-paper` endpoint (`research_generator.py`, lines 267–308) -/

namespace EndpointApi

open PyStr

/-- The request body fields the endpoint reads (`request_data.get(...)`);
absent JSON keys are `none`. -/
structure RequestData where
  topic : Option String
  sections : List Chars
  wordCount : ℕ
  repoUrl : Option String
  sourceType : Option String
  sourceUrl : Option String
  deriving Repr, DecidableEq

/-- A Python exception as far as the endpoint's handlers can observe it:
`fastapi.HTTPException(status_code, detail)` (which subclasses
`Exception`), or any other exception with its message. -/
inductive PyExn where
  | http (status : ℕ) (detail : String)
  | other (msg : String)
  deriving Repr, DecidableEq

/-- Python `str(e)`: Starlette's `HTTPException.__str__` renders
`f"{self.status_code}: {self.detail}"`. -/
def pyExnStr : PyExn → String
  | .http status detail => toString status ++ ": " ++ detail
  | .other msg => msg

inductive EndpointResult where
  | ok (paper : List (Chars × Chars))
  | httpError (status : ℕ) (detail : String)
  deriving Repr, DecidableEq

/-- The `POST /generate-paper` handler.  The whole body runs inside
`try: ... except Exception as e: raise HTTPException(status_code=500,
detail=str(e))`; since `HTTPException` itself subclasses `Exception`,
the `HTTPException(400, "Topic is required")` raised for a missing topic
is caught by that handler too and re-raised as a 500.  `.ok paper` is the
`{"paper": paper}` response value. -/
def generate_paper_endpoint (rd : RequestData)
    (gemini : Chars → Chars → Chars) (meta : ResearchGen.RepoMeta)
    (today : Chars) : EndpointResult :=
  let repo_url0 := rd.repoUrl
  let repo_url :=
    if (¬ ResearchGen.truthyOptStr repo_url0) ∧ rd.sourceType = some "github" then
      rd.sourceUrl
    else repo_url0
  let body : Except PyExn (List (Chars × Chars)) :=
    if ¬ ResearchGen.truthyOptStr rd.topic then
      .error (.http 400 "Topic is required")
    else
      .ok (ResearchGen.generate_research_paper ((rd.topic.getD "").data)
        rd.sections rd.wordCount repo_url gemini meta today).1
  match body with
  | .ok paper => .ok paper
  | .error e => .httpError 500 (pyExnStr e)

end EndpointApi

/-! ## `backend/app/services/gemini_generator.py` (text processing) -/

namespace GeminiGen

open PyStr

/-- `self.human_patterns` (lines 74–93). -/
def transition_phrases : List Chars :=
  ["more specifically", "in other words", "that is to say",
   "on the other hand", "nevertheless", "in contrast",
   "furthermore", "what's more", "in addition to this"].map String.data

def uncertainty_markers : List Chars :=
  ["perhaps", "likely", "possibly", "probably", "seemingly",
   "apparently", "presumably", "conceivably", "potentially"].map String.data

def sentence_starters : List Chars :=
  ["Interestingly,", "Notably,", "It's worth mentioning that",
   "One might argue that", "In practice,", "From our experience,",
   "Surprisingly,", "As expected,", "Contrary to expectations,"].map String.data

def hedging_phrases : List Chars :=
  ["to some extent", "in most cases", "generally speaking",
   "broadly speaking", "by and large", "for the most part"].map String.data

/-- `GeminiGenerator._humanize_text(text)` (lines 169–210), with the
random draws threaded explicitly.  The float thresholds `0.1`, `0.15`,
`0.05`, `0.08` are the corresponding rationals. -/
def humanize_text (rng : Rng) (text0 : Chars) : Chars × Rng :=
  -- normalize spaces first
  let text1 := collapseWsL text0
  -- randomly add extra space after commas
  let (r1, rng) := rng.rand
  let text2 := if r1 < mkRat 1 10 then replaceL text1 ", ".data ",  ".data else text1
  -- occasionally replace some periods with semicolons in compound sentences
  let sentences := splitOnL ". ".data text2
  let loopA := sentences.foldl (fun (acc : List Chars × Rng) sentence =>
    let (r, rng') := acc.2.rand
    let s' :=
      if r < mkRat 15 100 && pyInL "and".data sentence
          && decide (sentence.length > 50) then
        replaceL sentence " and ".data "; and ".data
      else sentence
    (acc.1 ++ [s'], rng')) ([], rng)
  let text3 := joinL ". ".data loopA.1
  -- add natural language markers word by word
  let words := splitWsL text3
  let loopB := words.foldl (fun (acc : ℕ × List Chars × Rng) word =>
    let i := acc.1
    let (r1, rng') := acc.2.2.rand
    let (withTransition, rng') :=
      if r1 < mkRat 5 100 && decide (i > 0) then
        let (t, rng'') := rng'.choice transition_phrases
        (acc.2.1 ++ [t ++ ",".data], rng'')
      else (acc.2.1, rng')
    let (r2, rng') := rng'.rand
    let (word', rng') :=
      if r2 < mkRat 8 100 && endsWithL word ".".data then
        let (u, rng'') := rng'.choice uncertainty_markers
        (u ++ " ".data ++ word, rng'')
      else (word, rng')
    (i + 1, withTransition ++ [word'], rng')) (0, [], loopA.2)
  let text4 := joinL " ".data loopB.2.1
  -- clean up double commas and spaces, then strip
  let text5 := collapseWsL (commaWsCommaL text4)
  (stripWsL text5, loopB.2.2)

/-- The event trace of `GeminiGenerator.generate_paper_section`
(lines 325–349): three generation attempts, each a Gemini call followed
by the textual post-processing pass (`_humanize_text`,
`_add_natural_variations`, `_add_intentional_imperfections`). -/
def generate_paper_section_trace (sectionName : Chars) : List Event :=
  (List.range 3).flatMap (fun _ =>
    [Event.modelCall sectionName, Event.humanizePass sectionName])

end GeminiGen

namespace PyStr

/-- `re.sub(r'\n\s*\n', '\n\n', s)`: at a `\n`, the greedy `\s*` with
backtracking makes the match end at the last `\n` of the maximal
whitespace run that follows; the replacement is not rescanned. -/
def nlWsNlAux : ℕ → Chars → Chars
  | _, [] => []
  | 0, s => s
  | fuel + 1, c :: rest =>
    if c = '\n' then
      let run := rest.takeWhile pyIsSpaceC
      if run.contains '\n' then
        let tailNoNl := run.reverse.takeWhile (fun d => d ≠ '\n')
        '\n' :: '\n' :: nlWsNlAux fuel (rest.drop (run.length - tailNoNl.length))
      else c :: nlWsNlAux fuel rest
    else c :: nlWsNlAux fuel rest

def nlWsNlL (s : Chars) : Chars := nlWsNlAux s.length s

end PyStr

/-! ## `backend/app/utils/paper_humanizer.py` (`PaperHumanizer`) -/

namespace Humanizer

open PyStr

/-- `self.transitions` (lines 16–37), in dict insertion order. -/
def transitions : List (Chars × List Chars) :=
  [("addition".data,
    ["Furthermore,", "Additionally,", "Moreover,", "In addition,",
     "Besides that,", "What's more,", "On top of that,", "Beyond this,"].map String.data),
   ("contrast".data,
    ["However,", "Nevertheless,", "On the other hand,", "In contrast,",
     "Despite this,", "Alternatively,", "Yet,", "Nonetheless,"].map String.data),
   ("consequence".data,
    ["As a result,", "Consequently,", "Therefore,", "Thus,",
     "Hence,", "For this reason,", "Accordingly,", "Subsequently,"].map String.data),
   ("emphasis".data,
    ["Indeed,", "Certainly,", "Clearly,", "Obviously,", "Without doubt,",
     "Importantly,", "Notably,", "Particularly,", "Especially,"].map String.data),
   ("example".data,
    ["For instance,", "As an example,", "To illustrate,", "Specifically,",
     "For example,", "In particular,", "Consider that,", "Take for example,"].map String.data)]

/-- `self.synonyms` (lines 40–51). -/
def synonyms : List (Chars × List Chars) :=
  [("shows".data,
    ["demonstrates", "reveals", "indicates", "suggests", "illustrates", "exhibits"].map String.data),
   ("important".data,
    ["significant", "crucial", "vital", "essential", "key", "fundamental"].map String.data),
   ("different".data,
    ["distinct", "varied", "diverse", "alternative", "unique", "separate"].map String.data),
   ("method".data,
    ["approach", "technique", "strategy", "procedure", "methodology", "process"].map String.data),
   ("result".data,
    ["outcome", "finding", "conclusion", "consequence", "effect", "product"].map String.data),
   ("problem".data,
    ["challenge", "issue", "difficulty", "concern", "obstacle", "matter"].map String.data),
   ("solution".data,
    ["resolution", "approach", "answer", "remedy", "fix", "way forward"].map String.data),
   ("use".data,
    ["utilize", "employ", "apply", "implement", "leverage", "adopt"].map String.data),
   ("improve".data,
    ["enhance", "optimize", "refine", "upgrade", "advance", "better"].map String.data),
   ("create".data,
    ["develop", "generate", "establish", "produce", "construct", "build"].map String.data)]

/-- `self.sentence_starters` (lines 63–66). -/
def sentence_starters : List Chars :=
  ["Given that", "Considering", "Since", "Because", "While", "Although",
   "Despite", "Through", "By examining", "Upon investigation",
   "When analyzing"].map String.data

/-- The replacement table of `_fix_robotic_patterns` (lines 179–188),
in dict insertion order. -/
def robotic_replacements : List (Chars × Chars) :=
  [("This paper".data, "Our research".data),
   ("The paper".data, "This work".data),
   ("This study".data, "Our investigation".data),
   ("This research".data, "The present study".data),
   ("It is important to note that".data, "Notably,".data),
   ("It should be noted that".data, "We observe that".data),
   ("In conclusion,".data, "To summarize,".data),
   ("In summary,".data, "Overall,".data)]

/-- `PaperHumanizer._split_into_sentences` (lines 140–144). -/
def split_into_sentences (text : Chars) : List Chars :=
  ((splitSentencesL text).map stripWsL).filter (fun s => s ≠ [])

/-- `PaperHumanizer._vary_sentence_starter` (lines 146–155).  The
`IndexError` case of an empty word list cannot occur: the caller only
invokes this on sentences of more than five words. -/
def vary_sentence_starter (rng : Rng) (sentence : Chars) : Chars × Rng :=
  let (r, rng) := rng.rand
  if r < mkRat 3 10 then
    let (starter, rng) := rng.choice sentence_starters
    match splitWsL sentence with
    | firstWord :: restWords =>
      (starter ++ " ".data ++ lowerL firstWord ++ " ".data
        ++ joinL " ".data restWords, rng)
    | [] => (sentence, rng)
  else (sentence, rng)

/-- `PaperHumanizer._replace_synonyms` (lines 157–175).  A draw is
consumed only when the lower-cased, punctuation-stripped word is a
synonyms key (Python's `and` short-circuits). -/
def replace_synonyms (rng : Rng) (sentence : Chars) : Chars × Rng :=
  let words := splitWsL sentence
  let out := words.foldl (fun (acc : List Chars × Rng) word =>
    let word_lower := rstripCharsL ".,!?:;".data (lowerL word)
    match PyCache.dictFind word_lower synonyms with
    | some options =>
      let (r, rng') := acc.2.rand
      if r < mkRat 4 10 then
        let (syn, rng'') := rng'.choice options
        let syn' := if (word.headD ' ').isUpper then capitalizeL syn else syn
        let punctuation := word.drop (rstripCharsL ".,!?:;".data word).length
        (acc.1 ++ [syn' ++ punctuation], rng'')
      else (acc.1 ++ [word], rng')
    | none => (acc.1 ++ [word], acc.2)) ([], rng)
  (joinL " ".data out.1, out.2)

/-- `PaperHumanizer._fix_robotic_patterns` (lines 177–195): each table
entry is applied with probability 0.7 as a case-insensitive,
word-boundary-delimited substitution. -/
def fix_robotic_patterns (rng : Rng) (sentence : Chars) : Chars × Rng :=
  robotic_replacements.foldl (fun (acc : Chars × Rng) pr =>
    let (r, rng') := acc.2.rand
    if r < mkRat 7 10 then (subWordBoundL acc.1 pr.1 pr.2, rng')
    else (acc.1, rng')) (sentence, rng)

/-- `PaperHumanizer._process_sentence` (lines 122–138). -/
def process_sentence (rng : Rng) (sentence : Chars)
    (sentence_index paragraph_index : ℕ) : Chars × Rng :=
  let (s1, rng) :=
    if paragraph_index > 0 ∧ sentence_index = 0 ∧ (splitWsL sentence).length > 5 then
      vary_sentence_starter rng sentence
    else (sentence, rng)
  let (s2, rng) := replace_synonyms rng s1
  let (s3, rng) := fix_robotic_patterns rng s2
  let s4 :=
    if ¬ (endsWithL s3 ".".data || endsWithL s3 "!".data
        || endsWithL s3 "?".data || endsWithL s3 ":".data) then
      s3 ++ ".".data
    else s3
  (s4, rng)

/-- `PaperHumanizer._already_has_transition` (lines 215–220). -/
def already_has_transition (sentence : Chars) : Bool :=
  let first_word := rstripCharsL [','] (lowerL ((splitWsL sentence).headD []))
  let transition_words :=
    (transitions.map Prod.snd).flatten.map (fun w => rstripCharsL [','] (lowerL w))
  first_word ∈ transition_words

/-- `PaperHumanizer._determine_transition_type` (lines 222–235). -/
def determine_transition_type (rng : Rng) (prev_sentence current_sentence : Chars)
    (section_type : Chars) : Option Chars × Rng :=
  let _ := prev_sentence  -- parameter unused by the body, as in the source
  if pyInL "however".data (lowerL current_sentence)
      || pyInL "but".data (lowerL current_sentence) then (none, rng)
  else if pyInL "therefore".data (lowerL current_sentence)
      || pyInL "thus".data (lowerL current_sentence) then (none, rng)
  else if section_type = "results".data || section_type = "discussion".data then
    let (t, rng') := rng.choice ["example".data, "emphasis".data]
    (some t, rng')
  else if section_type = "conclusion".data then (some "consequence".data, rng)
  else
    let (t, rng') := rng.choice ["addition".data, "contrast".data]
    (some t, rng')

/-- `PaperHumanizer._add_transitions` (lines 197–213).  The first
sentence is kept as is; each later sentence consumes one draw and, with
probability 0.3 and no existing transition, may be prefixed with a drawn
transition phrase.  `prev` is the preceding sentence of the input list. -/
def add_transitions_aux (section_type : Chars) (rng : Rng) (prev : Chars) :
    List Chars → List Chars × Rng
  | [] => ([], rng)
  | sentence :: rest =>
    let (r, rng1) := rng.rand
    let (s', rng2) :=
      if r < mkRat 3 10 && ¬ already_has_transition sentence then
        match determine_transition_type rng1 prev sentence section_type with
        | (some tt, rngA) =>
          let (transition, rngB) := rngA.choice ((PyCache.dictFind tt transitions).getD [])
          (transition ++ " ".data ++ sentence, rngB)
        | (none, rngA) => (sentence, rngA)
      else (sentence, rng1)
    let next := add_transitions_aux section_type rng2 sentence rest
    (s' :: next.1, next.2)

/-- `PaperHumanizer._add_transitions`: keep the first sentence, then
process the rest with the previous input sentence in hand.  (The caller
guarantees a list of at least two sentences.) -/
def add_transitions (rng : Rng) (sentences : List Chars) (section_type : Chars) :
    List Chars × Rng :=
  match sentences with
  | [] => ([], rng)
  | s0 :: rest =>
    let out := add_transitions_aux section_type rng s0 rest
    (s0 :: out.1, out.2)

/-- `PaperHumanizer._process_paragraph` (lines 105–120). -/
def process_paragraph (rng : Rng) (paragraph : Chars)
    (paragraph_index : ℕ) (section_type : Chars) : Chars × Rng :=
  let sentences := split_into_sentences paragraph
  let loopOut := sentences.foldl (fun (acc : ℕ × List Chars × Rng) sentence =>
    let i := acc.1
    if stripWsL sentence ≠ [] then
      let (processed, rng') :=
        process_sentence acc.2.2 (stripWsL sentence) i paragraph_index
      (i + 1, acc.2.1 ++ [processed], rng')
    else (i + 1, acc.2.1, acc.2.2)) (0, [], rng)
  let processed_sentences := loopOut.2.1
  let (finalSentences, rng) :=
    if processed_sentences.length > 1 then
      add_transitions loopOut.2.2 processed_sentences section_type
    else (processed_sentences, loopOut.2.2)
  (joinL " ".data finalSentences, rng)

/-- `PaperHumanizer._format_references` (lines 258–270). -/
def format_references (content : Chars) : Chars :=
  let lines := splitCharL '\n' content
  let formatted_lines := lines.foldl (fun acc line =>
    if stripWsL line ≠ [] ∧ ¬ startsWithL line "[".data then acc ++ [stripWsL line]
    else if stripWsL line ≠ [] then acc ++ [line]
    else acc) []
  joinL "\n".data formatted_lines

/-- `PaperHumanizer._format_abstract` (lines 272–276). -/
def format_abstract (content : Chars) : Chars :=
  joinL " ".data (splitCharL '\n' content)

/-- `PaperHumanizer._final_polish` (lines 237–256).  The `paragraphs`
variable of the source is computed and never used. -/
def final_polish (content : Chars) (section_type : Chars) : Chars :=
  let c1 := collapseWsL content
  let c2 := nlWsNlL c1
  let c3 := collapseRunsL '.' c2
  let c4 := collapseRunsL ',' c3
  let _paragraphs := splitOnL "\n\n".data c4
  if section_type = "references".data then format_references c4
  else if section_type = "abstract".data then format_abstract c4
  else c4

/-- The body of the `try` block of `PaperHumanizer.humanize_content`
(lines 79–99). -/
def humanize_content_body (rng : Rng) (content section_type : Chars) :
    Chars × Rng :=
  let humanized := stripWsL content
  let paragraphs := splitOnL "\n\n".data humanized
  let loopOut := paragraphs.foldl (fun (acc : ℕ × List Chars × Rng) paragraph =>
    let i := acc.1
    if stripWsL paragraph ≠ [] then
      let (processed, rng') :=
        process_paragraph acc.2.2 (stripWsL paragraph) i section_type
      (i + 1, acc.2.1 ++ [processed], rng')
    else (i + 1, acc.2.1, acc.2.2)) (0, [], rng)
  let joined := joinL "\n\n".data loopOut.2.1
  (final_polish joined section_type, loopOut.2.2)

/-- `PaperHumanizer.humanize_content` (lines 68–103): the body runs in a
`try` block whose `except Exception` logs and returns the original
`content`.  `exn` injects the outcome of a raised internal exception
(`some message`); with no exception the body's result is returned. -/
def humanize_content (rng : Rng) (content section_type : Chars)
    (exn : Option String) : Chars × Rng :=
  match exn with
  | some _ => (content, rng)
  | none => humanize_content_body rng content section_type

end Humanizer

/-! ## Helper lemmas -/

namespace PyCache

variable {κ β : Type} [DecidableEq κ]

theorem dictFind_insert_self (k : κ) (v : β) (d : List (κ × β)) :
    dictFind k (dictInsert k v d) = some v := by
  induction d with
  | nil => simp [dictInsert, dictFind]
  | cons hd tl ih =>
    cases hd with
    | mk k0 v0 =>
      by_cases h : k0 = k
      · simp [dictInsert, dictFind, h]
      · simp [dictInsert, dictFind, h, ih]

theorem dictFind_insert_ne {k' k : κ} (h : k' ≠ k) (v : β) (d : List (κ × β)) :
    dictFind k' (dictInsert k v d) = dictFind k' d := by
  induction d with
  | nil => simp [dictInsert, dictFind, Ne.symm h]
  | cons hd tl ih =>
    cases hd with
    | mk k0 v0 =>
      by_cases h0 : k0 = k
      · subst h0
        simp [dictInsert, dictFind, Ne.symm h]
      · simp [dictInsert, dictFind, h0, ih]

theorem dictFind_pop_self (k : κ) (d : List (κ × β)) :
    dictFind k (dictPop k d) = none := by
  induction d with
  | nil => simp [dictPop, dictFind]
  | cons hd tl ih =>
    cases hd with
    | mk k0 v0 =>
      by_cases h : k0 = k
      · simpa [dictPop, List.filter, h] using ih
      · simpa [dictPop, List.filter, dictFind, h] using ih

theorem length_le_length_insert (k : κ) (v : β) (d : List (κ × β)) :
    d.length ≤ (dictInsert k v d).length := by
  induction d with
  | nil => simp [dictInsert]
  | cons hd tl ih =>
    cases hd with
    | mk k0 v0 =>
      by_cases h : k0 = k
      · simp [dictInsert, h]
      · simp only [dictInsert, if_neg h, List.length_cons]
        exact Nat.succ_le_succ ih

end PyCache

/-! ## C2: TTL get/set semantics of the cache -/

/-- **C2.**  For every key `k`, value `v` and TTL `t`: after
`CacheManager.set(k, v, t)` at time `s`, a `get(k)` at any time
`u ≤ s + t` returns `v`; at any time `u > s + t` it returns `None` and
removes the entry for `k`; a `get` of a key that is not in the cache
returns `None`; a `set` without a TTL uses the manager's default TTL,
which is 3600 seconds for the global `github_repo_cache`. -/
theorem cache_ttl_get_set_spec {α : Type} (m : PyCache.CacheManager α)
    (k : String) (v : α) (t s u : ℚ) :
    (u ≤ s + t → ((m.set k v s (some t)).get k u).1 = some v)
  ∧ (s + t < u →
      ((m.set k v s (some t)).get k u).1 = none
      ∧ PyCache.dictFind k ((m.set k v s (some t)).get k u).2.cache = none)
  ∧ (PyCache.dictFind k m.cache = none → (m.get k u).1 = none)
  ∧ m.set k v s none = m.set k v s (some m.default_ttl)
  ∧ (PyCache.github_repo_cache α).default_ttl = 3600 := by
  have hset : (m.set k v s (some t)).cache
      = PyCache.dictInsert k ⟨v, s + t, s⟩ m.cache := rfl
  refine ⟨?_, ?_, ?_, rfl, rfl⟩
  · intro h
    unfold PyCache.CacheManager.get
    rw [hset, PyCache.dictFind_insert_self]
    simp [not_lt.mpr h]
  · intro h
    refine ⟨?_, ?_⟩
    · unfold PyCache.CacheManager.get
      rw [hset, PyCache.dictFind_insert_self]
      simp [h]
    · unfold PyCache.CacheManager.get
      rw [hset, PyCache.dictFind_insert_self]
      simp only [h, if_true, if_pos]
      exact PyCache.dictFind_pop_self k _
  · intro h
    simp [PyCache.CacheManager.get, h]

/-- Witness for C2 at concrete inputs (`s = 0`, `t = 10`, `u = 0 + 10`
and `u = 0 + 10 + 1`). -/
theorem cache_ttl_get_set_spec_witness :
    ((((PyCache.CacheManager.init ℕ 3600).set "k" 7 0 (some 10)).get "k" (0 + 10)).1 = some 7)
  ∧ ((((PyCache.CacheManager.init ℕ 3600).set "k" 7 0 (some 10)).get "k" (0 + 10 + 1)).1 = none)
  ∧ (((PyCache.CacheManager.init ℕ 3600).get "k" 0).1 = none) :=
  ⟨(cache_ttl_get_set_spec (PyCache.CacheManager.init ℕ 3600) "k" 7 10 0 (0 + 10)).1
      (le_refl _),
   ((cache_ttl_get_set_spec (PyCache.CacheManager.init ℕ 3600) "k" 7 10 0 (0 + 10 + 1)).2.1
      (lt_add_one _)).1,
   (cache_ttl_get_set_spec (PyCache.CacheManager.init ℕ 3600) "k" 7 10 0 0).2.2.1 rfl⟩

/-! ## C3: the cache is not single-key and entries are removed -/

/-- **C3, counterexample.**  The claim "the underlying dictionary holds at
most one entry and no operation ever removes an entry" fails on the code:
two `set` calls with the two keys `fetch_repo_data` derives from two
different repository URLs leave the global `github_repo_cache` holding
two entries, and a `get` of an expired entry removes it (leaving the
dictionary empty). -/
theorem cache_single_key_counterexample :
    ((((PyCache.github_repo_cache ℕ).set "github_repo:https://github.com/a/b" 1 0 none).set
        "github_repo:https://github.com/c/d" 2 0 none).cache.length = 2)
  ∧ ((((PyCache.github_repo_cache ℕ).set "github_repo:https://github.com/a/b" 1 0
        (some 10)).get "github_repo:https://github.com/a/b" (0 + 10 + 1)).2.cache = []) := by
  constructor
  · rfl
  · have h : (0 : ℚ) + 10 < 0 + 10 + 1 := lt_add_one _
    unfold PyCache.CacheManager.get
    rw [show ((PyCache.github_repo_cache ℕ).set "github_repo:https://github.com/a/b" 1 0
        (some 10)).cache
      = PyCache.dictInsert "github_repo:https://github.com/a/b" ⟨1, 0 + 10, 0⟩ [] from rfl,
      PyCache.dictFind_insert_self]
    simp only [h, if_pos]
    rfl

/-- **C3, amended.**  The cache dictionary keeps one entry per key and can
hold several keys at once: setting two distinct keys leaves both entries
present, and `set` never removes entries.  Entries *are* removed, but
only lazily: a `get` that finds its entry expired pops it (there is no
capacity-based eviction). -/
theorem cache_multi_entry_lazy_eviction {α : Type} (m : PyCache.CacheManager α)
    (k1 k2 : String) (hk : k1 ≠ k2) (v1 v2 : α) (s1 s2 t u : ℚ) (hu : s1 + t < u) :
    (PyCache.dictFind k1 ((m.set k1 v1 s1 none).set k2 v2 s2 none).cache
        = some ⟨v1, s1 + m.default_ttl, s1⟩
      ∧ PyCache.dictFind k2 ((m.set k1 v1 s1 none).set k2 v2 s2 none).cache
        = some ⟨v2, s2 + m.default_ttl, s2⟩)
  ∧ m.cache.length ≤ (m.set k1 v1 s1 (some t)).cache.length
  ∧ ((m.set k1 v1 s1 (some t)).get k1 u).2.cache
      = PyCache.dictPop k1 (m.set k1 v1 s1 (some t)).cache := by
  refine ⟨⟨?_, ?_⟩, ?_, ?_⟩
  · rw [show ((m.set k1 v1 s1 none).set k2 v2 s2 none).cache
        = PyCache.dictInsert k2 ⟨v2, s2 + m.default_ttl, s2⟩
            (PyCache.dictInsert k1 ⟨v1, s1 + m.default_ttl, s1⟩ m.cache) from rfl,
      PyCache.dictFind_insert_ne hk, PyCache.dictFind_insert_self]
  · rw [show ((m.set k1 v1 s1 none).set k2 v2 s2 none).cache
        = PyCache.dictInsert k2 ⟨v2, s2 + m.default_ttl, s2⟩
            (PyCache.dictInsert k1 ⟨v1, s1 + m.default_ttl, s1⟩ m.cache) from rfl,
      PyCache.dictFind_insert_self]
  · exact PyCache.length_le_length_insert k1 _ m.cache
  · unfold PyCache.CacheManager.get
    rw [show (m.set k1 v1 s1 (some t)).cache
        = PyCache.dictInsert k1 ⟨v1, s1 + t, s1⟩ m.cache from rfl,
      PyCache.dictFind_insert_self]
    simp only [hu, if_pos]

/-- Witness for C3's amended statement at concrete inputs. -/
theorem cache_multi_entry_lazy_eviction_witness :
    (PyCache.dictFind "github_repo:u1"
        (((PyCache.github_repo_cache ℕ).set "github_repo:u1" 1 0 none).set
          "github_repo:u2" 2 0 none).cache = some ⟨1, 0 + 3600, 0⟩
      ∧ PyCache.dictFind "github_repo:u2"
        (((PyCache.github_repo_cache ℕ).set "github_repo:u1" 1 0 none).set
          "github_repo:u2" 2 0 none).cache = some ⟨2, 0 + 3600, 0⟩)
  ∧ (PyCache.github_repo_cache ℕ).cache.length
      ≤ (((PyCache.github_repo_cache ℕ).set "github_repo:u1" 1 0 (some 10)).cache).length
  ∧ (((PyCache.github_repo_cache ℕ).set "github_repo:u1" 1 0 (some 10)).get
        "github_repo:u1" (0 + 10 + 1)).2.cache
      = PyCache.dictPop "github_repo:u1"
          ((PyCache.github_repo_cache ℕ).set "github_repo:u1" 1 0 (some 10)).cache :=
  cache_multi_entry_lazy_eviction (PyCache.github_repo_cache ℕ)
    "github_repo:u1" "github_repo:u2" (by decide) 1 2 0 0 10 (0 + 10 + 1)
    (lt_add_one _)

/-! ## C10: `extract_github_info` versus `is_valid_github_url` -/

/-- **C10.**  `extract_github_info(url)` returns `(None, None)` exactly
when `is_valid_github_url(url)` is false; for a valid URL it returns the
first two segments of `parsed.path.strip('/').split('/')` — the URL path
stripped of surrounding slashes — as the `(owner, repo)` pair. -/
theorem extract_github_info_spec (url : String) :
    (URLValidator.extract_github_info url = (none, none)
      ↔ URLValidator.is_valid_github_url url = false)
  ∧ (URLValidator.is_valid_github_url url = true →
      ∃ p p0 p1 rest, PyUrl.urlparse url.data = .ok p
        ∧ URLValidator.pathParts p = p0 :: p1 :: rest
        ∧ URLValidator.extract_github_info url
            = (some (String.mk p0), some (String.mk p1))) := by
  have himp : URLValidator.is_valid_github_url url = true →
      ∃ p p0 p1 rest, PyUrl.urlparse url.data = .ok p
        ∧ URLValidator.pathParts p = p0 :: p1 :: rest
        ∧ URLValidator.extract_github_info url
            = (some (String.mk p0), some (String.mk p1)) := by
    intro hv
    have hv' := hv
    unfold URLValidator.is_valid_github_url at hv'
    by_cases h0 : url.data = []
    · simp [h0] at hv'
    · rw [if_neg h0] at hv'
      rcases hparse : PyUrl.urlparse url.data with e | p
      · rw [hparse] at hv'
        simp at hv'
      · rw [hparse] at hv'
        dsimp only at hv'
        rcases hpp : URLValidator.pathParts p with _ | ⟨p0, tl⟩
        · rw [hpp] at hv'
          simp at hv'
        · rcases tl with _ | ⟨p1, rest⟩
          · rw [hpp] at hv'
            simp at hv'
          · refine ⟨p, p0, p1, rest, rfl, hpp, ?_⟩
            unfold URLValidator.extract_github_info
            rw [if_neg (by simp [hv]), hparse]
            dsimp only
            rw [hpp]
  refine ⟨⟨?_, ?_⟩, himp⟩
  · intro he
    cases hvv : URLValidator.is_valid_github_url url with
    | false => rfl
    | true =>
      obtain ⟨p, p0, p1, rest, _, _, hex⟩ := himp hvv
      rw [hex] at he
      simp at he
  · intro hfalse
    unfold URLValidator.extract_github_info
    rw [if_pos (by simp [hfalse])]

/-- Witness for C10 at the concrete URL `https://github.com/foo/bar`. -/
theorem extract_github_info_spec_witness :
    URLValidator.is_valid_github_url "https://github.com/foo/bar" = true
  ∧ (∃ p p0 p1 rest,
      PyUrl.urlparse "https://github.com/foo/bar".data = .ok p
      ∧ URLValidator.pathParts p = p0 :: p1 :: rest
      ∧ URLValidator.extract_github_info "https://github.com/foo/bar"
          = (some (String.mk p0), some (String.mk p1)))
  ∧ URLValidator.extract_github_info "https://github.com/foo/bar"
      = (some "foo", some "bar") :=
  ⟨by decide,
   (extract_github_info_spec "https://github.com/foo/bar").2 (by decide),
   by decide⟩

/-! ## C7: bounds of `_sample_important_files` -/

/-- Every pattern suffix is non-empty and contains no newline (by
evaluation of the concrete list). -/
theorem patterns_nonempty_noNl :
    ∀ p ∈ PaperGen.important_patterns, ∀ a ∈ p, a.data ≠ [] ∧ '\n' ∉ a.data := by
  decide

/-- Across two different patterns, no suffix literal is a list-suffix of
another (by evaluation of the concrete list). -/
theorem patterns_cross_nonsuffix :
    ∀ p1 ∈ PaperGen.important_patterns, ∀ p2 ∈ PaperGen.important_patterns,
      p1 ≠ p2 → ∀ a ∈ p1, ∀ b ∈ p2,
        a.data.isSuffixOf b.data = false ∧ b.data.isSuffixOf a.data = false := by
  decide

theorem important_patterns_nodup : PaperGen.important_patterns.Nodup := by
  decide

theorem reSearch_suffix_cases {suf s : PyStr.Chars}
    (h : PaperGen.reSearchSuffix suf s = true) :
    suf <:+ s ∨ (suf ++ ['\n']) <:+ s := by
  unfold PaperGen.reSearchSuffix PyStr.endsWithL at h
  rcases Bool.or_eq_true_iff.mp h with h' | h'
  · exact Or.inl (List.isSuffixOf_iff_suffix.mp h')
  · exact Or.inr (List.isSuffixOf_iff_suffix.mp h')

theorem suffix_concat_cases {a b : PyStr.Chars} {c : Char} (h : a <:+ b ++ [c]) :
    a = [] ∨ ∃ a', a = a' ++ [c] ∧ a' <:+ b := by
  have h' : a.reverse <+: (b ++ [c]).reverse := List.reverse_prefix.mpr h
  rw [List.reverse_append] at h'
  simp only [List.reverse_cons, List.reverse_nil, List.nil_append,
    List.singleton_append] at h'
  cases ha : a.reverse with
  | nil =>
    left
    have := congrArg List.reverse ha
    simpa using this
  | cons x t =>
    right
    rw [ha] at h'
    obtain ⟨hxc, htp⟩ := List.cons_prefix_cons.mp h'
    refine ⟨t.reverse, ?_, ?_⟩
    · have := congrArg List.reverse ha
      simpa [hxc] using this
    · have : t.reverse.reverse <+: b.reverse := by simpa using htp
      exact List.reverse_prefix.mp this

/-- A path never matches two different patterns of the list. -/
theorem matches_pattern_disjoint :
    ∀ p1 ∈ PaperGen.important_patterns, ∀ p2 ∈ PaperGen.important_patterns,
      p1 ≠ p2 → ∀ path : String,
        PaperGen.matchesPattern p1 path = true →
        PaperGen.matchesPattern p2 path = false := by
  intro p1 h1 p2 h2 hne path hm
  by_contra hb
  have hb' : PaperGen.matchesPattern p2 path = true := by
    cases hmm : PaperGen.matchesPattern p2 path with
    | false => exact absurd hmm hb
    | true => rfl
  obtain ⟨a, haMem, hA⟩ := List.any_eq_true.mp hm
  obtain ⟨b, hbMem, hB⟩ := List.any_eq_true.mp hb'
  obtain ⟨haNe, haNl⟩ := patterns_nonempty_noNl p1 h1 a haMem
  obtain ⟨hbNe, hbNl⟩ := patterns_nonempty_noNl p2 h2 b hbMem
  obtain ⟨hab, hba⟩ := patterns_cross_nonsuffix p1 h1 p2 h2 hne a haMem b hbMem
  have noAB : ¬ a.data <:+ b.data := fun hsuf => by
    rw [List.isSuffixOf_iff_suffix.mpr hsuf] at hab; cases hab
  have noBA : ¬ b.data <:+ a.data := fun hsuf => by
    rw [List.isSuffixOf_iff_suffix.mpr hsuf] at hba; cases hba
  rcases reSearch_suffix_cases hA with hA1 | hA2 <;>
    rcases reSearch_suffix_cases hB with hB1 | hB2
  · rcases List.suffix_or_suffix_of_suffix hA1 hB1 with hh | hh
    · exact noAB hh
    · exact noBA hh
  · rcases List.suffix_or_suffix_of_suffix hA1 hB2 with hh | hh
    · rcases suffix_concat_cases hh with h0 | ⟨a', ha', _⟩
      · exact haNe h0
      · exact haNl (ha' ▸ List.mem_append_right a' (List.mem_singleton_self '\n'))
    · exact haNl (hh.mem (List.mem_append_right b.data (List.mem_singleton_self '\n')))
  · rcases List.suffix_or_suffix_of_suffix hA2 hB1 with hh | hh
    · exact hbNl (hh.mem (List.mem_append_right a.data (List.mem_singleton_self '\n')))
    · rcases suffix_concat_cases hh with h0 | ⟨b', hb', _⟩
      · exact hbNe h0
      · exact hbNl (hb' ▸ List.mem_append_right b' (List.mem_singleton_self '\n'))
  · rcases List.suffix_or_suffix_of_suffix hA2 hB2 with hh | hh
    · rcases suffix_concat_cases hh with h0 | ⟨a', ha', ha'b⟩
      · exact absurd h0 (by simp)
      · have : a.data = a' := List.append_cancel_right ha'
        exact noAB (this ▸ ha'b)
    · rcases suffix_concat_cases hh with h0 | ⟨b', hb', hb'a⟩
      · exact absurd h0 (by simp)
      · have : b.data = b' := List.append_cancel_right hb'
        exact noBA (this ▸ hb'a)

theorem countP_foldl_append {P α : Type} (g : P → List α) (q : α → Bool) :
    ∀ (ps : List P) (acc : List α),
      List.countP q (ps.foldl (fun a p => a ++ g p) acc)
        = List.countP q acc + (ps.map (fun p => List.countP q (g p))).sum := by
  intro ps
  induction ps with
  | nil => intro acc; simp
  | cons p ps ih =>
    intro acc
    rw [List.foldl_cons, ih, List.countP_append, List.map_cons, List.sum_cons]
    omega

theorem mem_foldl_append {P α : Type} (g : P → List α) :
    ∀ (ps : List P) (acc : List α) (x : α),
      x ∈ ps.foldl (fun a p => a ++ g p) acc ↔ x ∈ acc ∨ ∃ p ∈ ps, x ∈ g p := by
  intro ps
  induction ps with
  | nil => intro acc x; simp
  | cons p ps ih =>
    intro acc x
    rw [List.foldl_cons, ih]
    simp [List.mem_append, or_assoc]

theorem map_sum_of_single_nonzero {P : Type} (f : P → ℕ) :
    ∀ (ps : List P) (pat : P), pat ∈ ps → ps.Nodup →
      (∀ p ∈ ps, p ≠ pat → f p = 0) → (ps.map f).sum = f pat := by
  intro ps
  induction ps with
  | nil => intro pat h; cases h
  | cons p ps ih =>
    intro pat hmem hnd hz
    rcases List.mem_cons.mp hmem with heq | hmem'
    · subst heq
      have : ∀ q ∈ ps, f q = 0 := by
        intro q hq
        have hqne : q ≠ pat := by
          intro hqeq
          subst hqeq
          exact (List.nodup_cons.mp hnd).1 hq
        exact hz q (List.mem_cons_of_mem _ hq) hqne
      have hsum : (ps.map f).sum = 0 := by
        rw [List.sum_eq_zero_iff]
        intro x hx
        obtain ⟨q, hq, hfq⟩ := List.mem_map.mp hx
        rw [← hfq]
        exact this q hq
      simp [hsum]
    · have hpz : f p = 0 := hz p (List.mem_cons_self p ps) (by
        intro hpe; subst hpe
        exact (List.nodup_cons.mp hnd).1 hmem')
      rw [List.map_cons, List.sum_cons, hpz,
        ih pat hmem' (List.nodup_cons.mp hnd).2
          (fun q hq hqne => hz q (List.mem_cons_of_mem _ hq) hqne)]
      omega

theorem countP_filterMap_le {α β : Type} (g : α → Option β) (p : β → Bool) (q : α → Bool)
    (h : ∀ a b, g a = some b → p b = true → q a = true) :
    ∀ l : List α, List.countP p (l.filterMap g) ≤ List.countP q l := by
  intro l
  induction l with
  | nil => simp
  | cons a l ih =>
    cases hga : g a with
    | none =>
      simp only [List.filterMap_cons, hga, List.countP_cons]
      omega
    | some b =>
      simp only [List.filterMap_cons, hga, List.countP_cons]
      cases hpb : p b with
      | false =>
        simp [hpb]
        omega
      | true =>
        have hqa := h a b hga hpb
        simp [hpb, hqa]
        omega

/-- **C7.**  Repository sampling is bounded: `_sample_important_files`
returns at most 5 files, at most 2 of the returned files match any one
`important_patterns` entry, every returned file stems from a tree item of
type `"blob"`, and every returned content is truncated to at most 2000
characters. -/
theorem sample_important_files_bounds (tree : List PaperGen.TreeItem)
    (fetch : String → Option String) :
    (PaperGen.sample_important_files tree fetch).length ≤ 5
  ∧ (∀ pat ∈ PaperGen.important_patterns,
      (PaperGen.sample_important_files tree fetch).countP
        (fun e => PaperGen.matchesPattern pat e.1) ≤ 2)
  ∧ (∀ e ∈ PaperGen.sample_important_files tree fetch,
      (∃ item ∈ tree, item.type = "blob" ∧ item.path = e.1)
      ∧ e.2.length ≤ 2000) := by
  have hge : ∀ (f : PaperGen.TreeItem) (e : String × String),
      (if f.path = "" then none
        else match fetch f.path with
          | none => none
          | some content => some (f.path, String.mk (content.data.take 2000))) = some e →
      e.1 = f.path ∧ e.2.length ≤ 2000 := by
    intro f e hg
    by_cases hp : f.path = ""
    · rw [if_pos hp] at hg; cases hg
    · rw [if_neg hp] at hg
      cases hf : fetch f.path with
      | none => rw [hf] at hg; cases hg
      | some content =>
        rw [hf] at hg
        cases hg
        exact ⟨rfl, List.length_take_le _ _⟩
  refine ⟨?_, ?_, ?_⟩
  · calc (PaperGen.sample_important_files tree fetch).length
        ≤ ((PaperGen.important_patterns.foldl
            (fun acc pattern => acc ++ ((tree.filter (fun item => item.type = "blob")).filter
              (fun f => PaperGen.matchesPattern pattern f.path)).take 2) []).take 5).length :=
          List.length_filterMap_le _ _
      _ ≤ 5 := List.length_take_le _ _
  · intro pat hpat
    have h1 : (PaperGen.sample_important_files tree fetch).countP
        (fun e => PaperGen.matchesPattern pat e.1)
        ≤ ((PaperGen.important_patterns.foldl
            (fun acc pattern => acc ++ ((tree.filter (fun item => item.type = "blob")).filter
              (fun f => PaperGen.matchesPattern pattern f.path)).take 2) []).take 5).countP
            (fun f => PaperGen.matchesPattern pat f.path) := by
      apply countP_filterMap_le
      intro f e hg hp
      rw [(hge f e hg).1] at hp
      exact hp
    have h2 : ((PaperGen.important_patterns.foldl
          (fun acc pattern => acc ++ ((tree.filter (fun item => item.type = "blob")).filter
            (fun f => PaperGen.matchesPattern pattern f.path)).take 2) []).take 5).countP
          (fun f => PaperGen.matchesPattern pat f.path)
        ≤ (PaperGen.important_patterns.foldl
            (fun acc pattern => acc ++ ((tree.filter (fun item => item.type = "blob")).filter
              (fun f => PaperGen.matchesPattern pattern f.path)).take 2) []).countP
            (fun f => PaperGen.matchesPattern pat f.path) :=
      (List.take_sublist _ _).countP_le _
    have h3 : (PaperGen.important_patterns.foldl
          (fun acc pattern => acc ++ ((tree.filter (fun item => item.type = "blob")).filter
            (fun f => PaperGen.matchesPattern pattern f.path)).take 2) []).countP
          (fun f => PaperGen.matchesPattern pat f.path) ≤ 2 := by
      rw [countP_foldl_append
        (fun pattern => ((tree.filter (fun item => item.type = "blob")).filter
          (fun f => PaperGen.matchesPattern pattern f.path)).take 2)
        (fun f => PaperGen.matchesPattern pat f.path) PaperGen.important_patterns []]
      rw [map_sum_of_single_nonzero _ PaperGen.important_patterns pat hpat
        important_patterns_nodup ?zeros]
      case zeros =>
        intro p hp hpne
        rw [List.countP_eq_zero]
        intro f hf
        have hmem := List.Sublist.mem hf (List.take_sublist _ _)
        have hmatch : PaperGen.matchesPattern p f.path = true :=
          (List.mem_filter.mp hmem).2
        have := matches_pattern_disjoint p hp pat hpat hpne f.path hmatch
        simp [this]
      simp only [List.countP_nil, Nat.zero_add]
      calc List.countP _ _
          ≤ (((tree.filter (fun item => item.type = "blob")).filter
              (fun f => PaperGen.matchesPattern pat f.path)).take 2).length :=
            List.countP_le_length _
        _ ≤ 2 := List.length_take_le _ _
    calc _ ≤ _ := h1
      _ ≤ _ := h2
      _ ≤ _ := h3
  · intro e he
    obtain ⟨f, hfs, hgf⟩ := List.mem_filterMap.mp he
    obtain ⟨hpath, hlen⟩ := hge f e hgf
    refine ⟨⟨f, ?_, ?_, hpath.symm⟩, hlen⟩
    · have hfi := List.Sublist.mem hfs (List.take_sublist _ _)
      rw [mem_foldl_append] at hfi
      rcases hfi with h0 | ⟨p, hp, hseg⟩
      · cases h0
      · have hff := List.Sublist.mem hseg (List.take_sublist _ _)
        exact (List.mem_filter.mp (List.mem_filter.mp hff).1).1
    · have hfi := List.Sublist.mem hfs (List.take_sublist _ _)
      rw [mem_foldl_append] at hfi
      rcases hfi with h0 | ⟨p, hp, hseg⟩
      · cases h0
      · have hff := List.Sublist.mem hseg (List.take_sublist _ _)
        have := (List.mem_filter.mp (List.mem_filter.mp hff).1).2
        simpa using this

/-- Witness for C7 at a concrete tree and fetch stub. -/
theorem sample_important_files_bounds_witness :
    (PaperGen.sample_important_files
        [⟨"a.py", "blob"⟩, ⟨"b.md", "tree"⟩] (fun _ => some "print x")).length ≤ 5
  ∧ (PaperGen.sample_important_files
        [⟨"a.py", "blob"⟩, ⟨"b.md", "tree"⟩] (fun _ => some "print x")).countP
        (fun e => PaperGen.matchesPattern [".py"] e.1) ≤ 2
  ∧ ((∃ item ∈ [(⟨"a.py", "blob"⟩ : PaperGen.TreeItem), ⟨"b.md", "tree"⟩],
        item.type = "blob" ∧ item.path = "a.py")
      ∧ ("print x" : String).length ≤ 2000) :=
  ⟨(sample_important_files_bounds _ _).1,
   (sample_important_files_bounds _ _).2.1 [".py"] (by decide),
   (sample_important_files_bounds [⟨"a.py", "blob"⟩, ⟨"b.md", "tree"⟩]
      (fun _ => some "print x")).2.2 ("a.py", "print x") (by decide)⟩

/-! ## C5: failure handling of `GitHubPaperGenerator.generate_research_paper` -/

theorem infix_append_left_of_infix {α : Type} {l m : List α} (r : List α)
    (h : l <:+: m) : l <:+: r ++ m :=
  h.trans (List.suffix_append r m).isInfix

/-- **C5, counterexample.**  The claim "the call ends without constructing
any alternative document output for the caller" fails: on a fetch error
the code returns the document built by `_generate_error_paper` (here at a
concrete topic, URL, error and date), a non-empty "Limited Analysis"
paper, alongside the error log. -/
theorem fetch_error_counterexample :
    (PaperGen.generate_research_paper_gh (PyCache.github_repo_cache PaperGen.RepoData)
        "Topic".data "https://github.com/o/r" none 0 (.error "boom") "May 01, 2025".data).1
      = .errorPaper (PaperGen.generate_error_paper "Topic".data
          "https://github.com/o/r".data "boom".data none "May 01, 2025".data)
  ∧ PyStr.startsWithL
      (PaperGen.generate_error_paper "Topic".data "https://github.com/o/r".data
        "boom".data none "May 01, 2025".data)
      "# Limited Analysis of o/r".data = true
  ∧ (PaperGen.generate_research_paper_gh (PyCache.github_repo_cache PaperGen.RepoData)
        "Topic".data "https://github.com/o/r" none 0 (.error "boom") "May 01, 2025".data).2.2
      = ["Error fetching repository data: boom"] :=
  ⟨rfl, by decide, rfl⟩

/-- **C5, amended.**  Every error raised while fetching repository data
is logged (`"Error fetching repository data: ..."`) and the call returns
the fallback "limited analysis" paper built by `_generate_error_paper` —
which embeds the error message — to the caller, instead of propagating
the error or returning nothing. -/
theorem fetch_error_fallback_paper (m : PyCache.CacheManager PaperGen.RepoData)
    (topic : PyStr.Chars) (repo_url : String) (sections : Option (List PyStr.Chars))
    (now : ℚ) (api : Except String PaperGen.RepoData) (today : PyStr.Chars)
    (e : String) (m' : PyCache.CacheManager PaperGen.RepoData)
    (hfetch : PaperGen.fetch_repo_data m repo_url now api = (.error e, m')) :
    PaperGen.generate_research_paper_gh m topic repo_url sections now api today
      = (.errorPaper (PaperGen.generate_error_paper topic repo_url.data e.data
            sections today),
         m', ["Error fetching repository data: " ++ e])
  ∧ e.data <:+: PaperGen.generate_error_paper topic repo_url.data e.data
      sections today := by
  constructor
  · unfold PaperGen.generate_research_paper_gh
    rw [hfetch]
  · unfold PaperGen.generate_error_paper
    simp only [List.append_assoc]
    repeat
      first
      | exact (List.prefix_append _ _).isInfix
      | apply infix_append_left_of_infix

/-- Witness for C5's amended statement at a concrete fetch error. -/
theorem fetch_error_fallback_paper_witness :
    PaperGen.generate_research_paper_gh (PyCache.github_repo_cache PaperGen.RepoData)
        "Topic".data "https://github.com/o/r" none 0 (.error "boom") "May 01, 2025".data
      = (.errorPaper (PaperGen.generate_error_paper "Topic".data
            "https://github.com/o/r".data "boom".data none "May 01, 2025".data),
         PyCache.github_repo_cache PaperGen.RepoData,
         ["Error fetching repository data: boom"])
  ∧ "boom".data <:+: PaperGen.generate_error_paper "Topic".data
      "https://github.com/o/r".data "boom".data none "May 01, 2025".data :=
  fetch_error_fallback_paper (PyCache.github_repo_cache PaperGen.RepoData)
    "Topic".data "https://github.com/o/r" none 0 (.error "boom") "May 01, 2025".data
    "boom" (PyCache.github_repo_cache PaperGen.RepoData) rfl

/-! ## C6: topic required, repository URL optional -/

/-- **C6.**  The topic is required and the repository URL optional, but
the missing-topic failure does not surface as HTTP 400: the
`HTTPException(400, "Topic is required")` raised inside the endpoint's
own `try` block is caught by its blanket `except Exception` handler and
re-raised as HTTP 500 with detail `"400: Topic is required"`.  With a
topic and no repository URL, a paper is generated through the topic-only
path (single combined model call, response parsing, assembly). -/
theorem endpoint_topic_validation_behavior
    (gemini : PyStr.Chars → PyStr.Chars → PyStr.Chars)
    (meta : ResearchGen.RepoMeta) (today : PyStr.Chars) :
    EndpointApi.generate_paper_endpoint ⟨none, [], 3000, none, none, none⟩
        gemini meta today
      = .httpError 500 "400: Topic is required"
  ∧ EndpointApi.generate_paper_endpoint ⟨some "T", [], 3000, none, none, none⟩
        gemini meta today
      = .ok (ResearchGen.generate_research_paper "T".data [] 3000 none
          gemini meta today).1
  ∧ (ResearchGen.generate_research_paper "T".data [] 3000 none gemini meta today).2
      = [.combinedPrompt, .combinedModelCall, .parseResponse, .assembleDoc] :=
  ⟨rfl, rfl, rfl⟩

/-! ## C1: pipeline order and the absence of the humanization pass -/

/-- **C1, counterexample.**  A concrete repository-URL run that generates
one section: the trace contains a model invocation but no
`humanizePass` event at all before assembly, refuting "the post-processing
pass runs on every generated section before assembly". -/
theorem pipeline_no_humanize_counterexample :
    (ResearchGen.generate_research_paper "t".data ["abstract".data] 3000
        (some "https://github.com/o/r") (fun _ _ => "X".data)
        ⟨"n".data, "o".data, "d".data, "5".data, "Py".data, "c".data, "u".data⟩
        "May 01, 2025".data).2
      = [.cloneRepo, .readFiles, .fetchMetadata, .divideChunks,
         .buildPrompt "abstract".data, .modelCall "abstract".data,
         .cleanupTmp, .assembleDoc] := rfl

/-- **C1, amended.**  For a request with a (truthy) repository URL the
pipeline runs in the order ingestion (clone, file reading, metadata,
chunking) → per-section prompt construction and model invocation →
cleanup → document assembly, with no model invocation before ingestion
completes (every model call sits at index ≥ 4 of the trace) and assembly
last; but the textual post-processing pass is *not* applied to any
section's output in this pipeline — it exists only in
`GeminiGenerator.generate_paper_section`, which the pipeline never
invokes. -/
theorem pipeline_order_no_humanization (topic : PyStr.Chars)
    (sections : List PyStr.Chars) (word_count : ℕ) (u : String) (hu : u ≠ "")
    (gemini : PyStr.Chars → PyStr.Chars → PyStr.Chars)
    (meta : ResearchGen.RepoMeta) (today : PyStr.Chars) :
    (∃ calls,
      (ResearchGen.generate_research_paper topic sections word_count (some u)
          gemini meta today).2
        = [Event.cloneRepo, Event.readFiles, Event.fetchMetadata, Event.divideChunks]
            ++ calls ++ [Event.cleanupTmp, Event.assembleDoc]
      ∧ (∀ ev ∈ calls, ∃ s, (ev = Event.buildPrompt s ∨ ev = Event.modelCall s)
            ∧ s ∈ ResearchGen.effectiveSections sections
            ∧ s ∉ ResearchGen.loop_skip_sections)
      ∧ (∀ s, s ∈ ResearchGen.effectiveSections sections →
            s ∉ ResearchGen.loop_skip_sections → Event.modelCall s ∈ calls))
  ∧ (∀ s i, ((ResearchGen.generate_research_paper topic sections word_count (some u)
        gemini meta today).2).get? i = some (Event.modelCall s) → 4 ≤ i)
  ∧ (∀ s, Event.humanizePass s ∉
      (ResearchGen.generate_research_paper topic sections word_count (some u)
        gemini meta today).2)
  ∧ (∀ s, Event.humanizePass s ∈ GeminiGen.generate_paper_section_trace s) := by
  have loopSpec : ∀ (eff : List PyStr.Chars) (acc : List (PyStr.Chars × PyStr.Chars)),
      (∀ ev ∈ (ResearchGen.repoSectionLoop gemini u meta acc eff).2,
        ∃ s, (ev = Event.buildPrompt s ∨ ev = Event.modelCall s)
          ∧ s ∈ eff ∧ s ∉ ResearchGen.loop_skip_sections)
      ∧ (∀ s, s ∈ eff → s ∉ ResearchGen.loop_skip_sections →
          Event.modelCall s ∈ (ResearchGen.repoSectionLoop gemini u meta acc eff).2)
      ∧ (∀ s, Event.humanizePass s ∉ (ResearchGen.repoSectionLoop gemini u meta acc eff).2) := by
    intro eff
    induction eff with
    | nil =>
      intro acc
      refine ⟨?_, ?_, ?_⟩ <;> simp [ResearchGen.repoSectionLoop]
    | cons sectionName rest ih =>
      intro acc
      by_cases hskip : sectionName ∈ ResearchGen.loop_skip_sections
      · refine ⟨?_, ?_, ?_⟩
        · intro ev hev
          rw [ResearchGen.repoSectionLoop, if_pos hskip] at hev
          obtain ⟨s, h1, h2, h3⟩ := (ih acc).1 ev hev
          exact ⟨s, h1, List.mem_cons_of_mem _ h2, h3⟩
        · intro s hs hns
          rw [ResearchGen.repoSectionLoop, if_pos hskip]
          rcases List.mem_cons.mp hs with heq | hmem
          · subst heq; exact absurd hskip hns
          · exact (ih acc).2.1 s hmem hns
        · intro s
          rw [ResearchGen.repoSectionLoop, if_pos hskip]
          exact (ih acc).2.2 s
      · refine ⟨?_, ?_, ?_⟩
        · intro ev hev
          rw [ResearchGen.repoSectionLoop, if_neg hskip] at hev
          simp only [List.mem_cons] at hev
          rcases hev with h | h | h
          · exact ⟨sectionName, Or.inl h, List.mem_cons_self _ _, hskip⟩
          · exact ⟨sectionName, Or.inr h, List.mem_cons_self _ _, hskip⟩
          · obtain ⟨s, h1, h2, h3⟩ := (ih _).1 ev h
            exact ⟨s, h1, List.mem_cons_of_mem _ h2, h3⟩
        · intro s hs hns
          rw [ResearchGen.repoSectionLoop, if_neg hskip]
          rcases List.mem_cons.mp hs with heq | hmem
          · subst heq
            exact List.mem_cons_of_mem _ (List.mem_cons_self _ _)
          · exact List.mem_cons_of_mem _ (List.mem_cons_of_mem _ ((ih _).2.1 s hmem hns))
        · intro s
          rw [ResearchGen.repoSectionLoop, if_neg hskip]
          simp only [List.mem_cons, not_or]
          exact ⟨by simp, by simp, (ih _).2.2 s⟩
  have htruthy : ResearchGen.truthyOptStr (some u) = true := by
    simp [ResearchGen.truthyOptStr, hu]
  have htr : (ResearchGen.generate_research_paper topic sections word_count (some u)
      gemini meta today).2
      = [Event.cloneRepo, Event.readFiles, Event.fetchMetadata, Event.divideChunks]
          ++ (ResearchGen.repoSectionLoop gemini u meta []
              (ResearchGen.effectiveSections sections)).2
          ++ [Event.cleanupTmp, Event.assembleDoc] := by
    unfold ResearchGen.generate_research_paper
    rw [if_pos htruthy]
  refine ⟨?_, ?_, ?_, ?_⟩
  · refine ⟨(ResearchGen.repoSectionLoop gemini u meta []
      (ResearchGen.effectiveSections sections)).2, htr, ?_, ?_⟩
    · exact (loopSpec _ []).1
    · exact (loopSpec _ []).2.1
  · intro s i hget
    by_contra h4
    push_neg at h4
    rw [htr] at hget
    interval_cases i <;> simp at hget
  · intro s
    rw [htr]
    intro hmem
    rcases List.mem_append.mp hmem with h12 | h3
    · rcases List.mem_append.mp h12 with h1 | h2
      · simp at h1
      · exact (loopSpec _ []).2.2 s h2
    · simp at h3
  · intro s
    exact List.mem_flatMap.mpr ⟨0, by simp, by simp⟩

/-- Witness for C1's amended statement at a concrete repository URL. -/
theorem pipeline_order_no_humanization_witness :
    ("https://github.com/o/r" : String) ≠ ""
  ∧ (∀ s, Event.humanizePass s ∉
      (ResearchGen.generate_research_paper "t".data ["abstract".data] 3000
        (some "https://github.com/o/r") (fun _ _ => "X".data)
        ⟨"n".data, "o".data, "d".data, "5".data, "Py".data, "c".data, "u".data⟩
        "May 01, 2025".data).2) :=
  ⟨by decide,
   (pipeline_order_no_humanization "t".data ["abstract".data] 3000
      "https://github.com/o/r" (by decide) (fun _ _ => "X".data)
      ⟨"n".data, "o".data, "d".data, "5".data, "Py".data, "c".data, "u".data⟩
      "May 01, 2025".data).2.2.1⟩

/-! ## C8: the returned dictionary's keys -/

/-- The first components of the per-section assembly map are the
formatted section names, whatever `result` holds. -/
theorem map_fst_assemble (result : List (PyStr.Chars × PyStr.Chars)) :
    ∀ (order : List PyStr.Chars),
      (order.map (fun sectionName =>
        let fs := ResearchGen.formatSectionName sectionName
        match PyCache.dictFind sectionName result with
        | some v => (fs, v)
        | none => (fs, "This ".data ++ fs ++ " section was not generated.".data))).map
          Prod.fst
      = order.map ResearchGen.formatSectionName := by
  intro order
  induction order with
  | nil => rfl
  | cons s rest ih =>
    simp only [List.map_cons]
    rw [ih]
    cases hd : PyCache.dictFind s result <;> simp [hd]

/-- Assembly always emits exactly the eight canonical formatted section
names followed by `"Full Paper"`, whatever `result` holds. -/
theorem assembleResult_keys (topic : PyStr.Chars) (repo_url : Option String)
    (today : PyStr.Chars) (result : List (PyStr.Chars × PyStr.Chars)) :
    (ResearchGen.assembleResult topic repo_url today result).map Prod.fst
      = ["Abstract".data, "Introduction".data, "Literature Review".data,
         "Methodology".data, "Results".data, "Discussion".data,
         "Conclusion".data, "References".data, "Full Paper".data] := by
  unfold ResearchGen.assembleResult
  rw [List.map_append, map_fst_assemble]
  rfl

/-- **C8.**  The dictionary returned by
`ResearchPaperGenerator.generate_research_paper` has exactly the keys
`Abstract`, `Introduction`, `Literature Review`, `Methodology`,
`Results`, `Discussion`, `Conclusion`, `References` and `Full Paper`, in
that order, for every topic, requested section list, repository option
and generation outcome; a canonical section absent from the generated
`result` is mapped to its placeholder string; and no key outside the
canonical nine (in particular no requested section outside the canonical
list) ever appears. -/
theorem generate_paper_output_keys (topic : PyStr.Chars)
    (sections : List PyStr.Chars) (word_count : ℕ) (repo_url : Option String)
    (gemini : PyStr.Chars → PyStr.Chars → PyStr.Chars)
    (meta : ResearchGen.RepoMeta) (today : PyStr.Chars) :
    ((ResearchGen.generate_research_paper topic sections word_count repo_url
        gemini meta today).1).map Prod.fst
      = ["Abstract".data, "Introduction".data, "Literature Review".data,
         "Methodology".data, "Results".data, "Discussion".data,
         "Conclusion".data, "References".data, "Full Paper".data]
  ∧ (∀ s, s ∈ ResearchGen.section_order →
      PyCache.dictFind s (ResearchGen.internalResult topic sections word_count
        repo_url gemini meta) = none →
      (ResearchGen.formatSectionName s,
       "This ".data ++ ResearchGen.formatSectionName s
         ++ " section was not generated.".data)
        ∈ (ResearchGen.generate_research_paper topic sections word_count repo_url
            gemini meta today).1)
  ∧ (∀ k, k ∈ ((ResearchGen.generate_research_paper topic sections word_count
        repo_url gemini meta today).1).map Prod.fst →
      k ∈ ["Abstract".data, "Introduction".data, "Literature Review".data,
           "Methodology".data, "Results".data, "Discussion".data,
           "Conclusion".data, "References".data, "Full Paper".data]) := by
  have hout : ∃ repoArg,
      (ResearchGen.generate_research_paper topic sections word_count repo_url
        gemini meta today).1
      = ResearchGen.assembleResult topic repoArg today
          (ResearchGen.internalResult topic sections word_count repo_url gemini meta) := by
    unfold ResearchGen.generate_research_paper ResearchGen.internalResult
    cases repo_url with
    | none => exact ⟨none, by simp [ResearchGen.truthyOptStr]⟩
    | some z =>
      by_cases hz : z = ""
      · subst hz
        exact ⟨none, by simp [ResearchGen.truthyOptStr]⟩
      · refine ⟨some z, ?_⟩
        have hzt : ResearchGen.truthyOptStr (some z) = true := by
          simp [ResearchGen.truthyOptStr, hz]
        simp only [hzt, if_true]
  obtain ⟨repoArg, hout⟩ := hout
  refine ⟨?_, ?_, ?_⟩
  · rw [hout, assembleResult_keys]
  · intro s hs hnone
    rw [hout]
    unfold ResearchGen.assembleResult
    apply List.mem_append_left
    have hmem := List.mem_map_of_mem (f := fun sectionName =>
      let fs := ResearchGen.formatSectionName sectionName
      match PyCache.dictFind sectionName (ResearchGen.internalResult topic sections
        word_count repo_url gemini meta) with
      | some v => (fs, v)
      | none => (fs, "This ".data ++ fs ++ " section was not generated.".data)) hs
    dsimp only at hmem
    rw [hnone] at hmem
    exact hmem
  · intro k hk
    rw [hout, assembleResult_keys] at hk
    exact hk

/-- Witness for C8 at a concrete topic-only run requesting only the
`introduction` section: `abstract` is absent from the generated result
and receives its placeholder. -/
theorem generate_paper_output_keys_witness :
    "abstract".data ∈ ResearchGen.section_order
  ∧ PyCache.dictFind "abstract".data
      (ResearchGen.internalResult "t".data ["introduction".data] 3000 none
        (fun _ _ => "X".data)
        ⟨"n".data, "o".data, "d".data, "5".data, "Py".data, "c".data, "u".data⟩) = none
  ∧ (ResearchGen.formatSectionName "abstract".data,
     "This ".data ++ ResearchGen.formatSectionName "abstract".data
       ++ " section was not generated.".data)
      ∈ (ResearchGen.generate_research_paper "t".data ["introduction".data] 3000 none
          (fun _ _ => "X".data)
          ⟨"n".data, "o".data, "d".data, "5".data, "Py".data, "c".data, "u".data⟩
          "May 01, 2025".data).1 :=
  ⟨by decide, by decide,
   (generate_paper_output_keys "t".data ["introduction".data] 3000 none
      (fun _ _ => "X".data)
      ⟨"n".data, "o".data, "d".data, "5".data, "Py".data, "c".data, "u".data⟩
      "May 01, 2025".data).2.1 "abstract".data (by decide) (by decide)⟩

/-! ## C9: `humanize_content` is atomic on error -/

/-- **C9.**  For every content string, section type, random state and
internal exception, `PaperHumanizer.humanize_content` returns the
original content argument unchanged when any internal processing step
raises, and never propagates the exception (its result type is a plain
string, produced by the `except` branch); with no exception it returns
the processed body. -/
theorem humanize_content_error_atomicity (rng : Rng)
    (content section_type : PyStr.Chars) (e : String) :
    (Humanizer.humanize_content rng content section_type (some e)).1 = content
  ∧ (Humanizer.humanize_content rng content section_type (some e)).2 = rng
  ∧ Humanizer.humanize_content rng content section_type none
      = Humanizer.humanize_content_body rng content section_type :=
  ⟨rfl, rfl, rfl⟩

/-! ## C4: the humanization pass is randomized -/

/-- **C4.**  The humanization logic is randomized, not a deterministic
function of its text input: with the same input content (and section
type) but different draws from the random source,
`PaperHumanizer.humanize_content` produces different outputs (here the
synonym substitution rewrites `shows` to `demonstrates`), and likewise
`GeminiGenerator._humanize_text` (here the uncertainty-marker insertion
prefixes `perhaps`). -/
theorem humanization_randomized :
    ((⟨[mkRat 1 2, 1, 1, 1, 1, 1, 1, 1, 1], []⟩ : Rng)
        ≠ ⟨[mkRat 0 1, 1, 1, 1, 1, 1, 1, 1, 1], [0]⟩
      ∧ (Humanizer.humanize_content ⟨[mkRat 1 2, 1, 1, 1, 1, 1, 1, 1, 1], []⟩
            "This paper shows X.".data "methodology".data none).1
          = "This paper shows X.".data
      ∧ (Humanizer.humanize_content ⟨[mkRat 0 1, 1, 1, 1, 1, 1, 1, 1, 1], [0]⟩
            "This paper shows X.".data "methodology".data none).1
          = "This paper demonstrates X.".data)
  ∧ ((⟨[1, 1, 1, 1], []⟩ : Rng) ≠ ⟨[1, 1, 1, mkRat 0 1], [0]⟩
      ∧ (GeminiGen.humanize_text ⟨[1, 1, 1, 1], []⟩ "Hi.".data).1 = "Hi.".data
      ∧ (GeminiGen.humanize_text ⟨[1, 1, 1, mkRat 0 1], [0]⟩ "Hi.".data).1
          = "perhaps Hi.".data) := by
  refine ⟨⟨?_, ?_, ?_⟩, ?_, ?_, ?_⟩ <;> decide
